import Mathlib

/-!
# Verification of the dsiem backlog manager (`internal/dsiem/pkg/siem/backlogmgr.go`)

A shallow embedding of the backlog lifecycle manager: per-directive event
routing (`manager`), backlog creation (`createNewBackLog`), reference
resolution at creation time (`initBackLogRules`), backlog removal
(`removeBackLog`) and the watchdog sweep (`startWatchdogTicker`).

Go strings are Lean `String`s, Go slices are Lean `List`s (indexed reads
`xs[i]` become `List.getD i dflt`, in-place writes become `List.set`; the
theorems about resolution carry in-range hypotheses so that the embedding
never leaves the domain where the Go program does not panic).  Go maps keyed
by backlog ID are `List backLog` with the no-duplicate-ID invariant carried
as a hypothesis where it matters; Go map iteration order is unspecified, the
list order stands for the iteration order the scheduler happened to pick.
Concurrency (locks, goroutine dispatch) is embedded as the sequence of
lock/unlock/dispatch actions an iteration of the loop performs, in program
order.
-/

namespace Dsiem

/-- Numeric value of a list of decimal digit characters, most significant
first (the accumulation `strconv.Atoi` performs on an all-digit string). -/
def digitsVal (cs : List Char) : Nat :=
  cs.foldl (fun n c => n * 10 + (c.toNat - ('0').toNat)) 0

/-- Modelled from the spec: `str.RefToDigit` (package
`internal/shared/pkg/str`, not part of the sources under review).  The spec
describes a rule-field value that "is syntactically a `same as stage K`
reference (parses as a 1-based stage number)", and the code comment in
`initBackLogRules` gives the concrete syntax "the format of `:ref`": a colon
followed by a non-empty run of decimal digits.  Returns the stage number on
success. -/
def refToDigit (s : String) : Option Nat :=
  match s.data with
  | [] => none
  | c :: rest =>
    if c = ':' ∧ rest ≠ [] ∧ rest.all Char.isDigit then some (digitsVal rest) else none

/-- One correlation-rule stage of a directive.  Only the fields the backlog
manager reads or writes are embedded (`Status`, the four addressable
endpoint fields, and the per-stage `StartTime`). -/
structure Rule where
  Status : String := ""
  From : String := ""
  To : String := ""
  PortFrom : String := ""
  PortTo : String := ""
  StartTime : Int := 0
  deriving Repr, DecidableEq

/-- The zero `Rule`, used as the out-of-range default of indexed reads. -/
def dfltRule : Rule := {}

/-- A directive: stable identifier plus its ordered rules. -/
structure directive where
  ID : Nat := 0
  Rules : List Rule := []
  deriving Repr, DecidableEq

/-- A normalized event as consumed by the manager: connection id, the four
endpoint values, and the timestamp the event carries. -/
structure NormalizedEvent where
  ConnID : Nat := 0
  SrcIP : String := ""
  DstIP : String := ""
  SrcPort : Nat := 0
  DstPort : Nat := 0
  Timestamp : Int := 0
  deriving Repr, DecidableEq

/-- A backlog: one in-progress instantiation of a directive.  The manager
reads `ID`, `CurrentStage`, `HighestStage` and the private `Directive` copy;
per-stage bookkeeping internal to `backlog.go` is out of scope. -/
structure backLog where
  ID : String := ""
  CurrentStage : Nat := 1
  HighestStage : Nat := 1
  Directive : directive := {}
  deriving Repr, DecidableEq

/-- `rs[i]` of the Go slice as a defaulted read. -/
def nthRule (rs : List Rule) (i : Nat) : Rule := rs.getD i dfltRule

/-- One field-resolution block of `initBackLogRules` (lines 213-255 are four
copies of this shape, one per field): if the field selected by `get` at
index `i` parses as a reference `:v`, read the referenced value at index
`v-1` from the *current* rule list; if `usable` holds of it (the Go `!=`
comparisons against the wildcard classes) copy it literally, otherwise
substitute the event-derived value `ev`. -/
def resolveField (get : Rule → String) (set : Rule → String → Rule)
    (usable : String → Bool) (ev : String) (rs : List Rule) (i : Nat) : List Rule :=
  match refToDigit (get (nthRule rs i)) with
  | none => rs
  | some v =>
    let ref := get (nthRule rs (v - 1))
    if usable ref then rs.set i (set (nthRule rs i) ref)
    else rs.set i (set (nthRule rs i) ev)

def setStatus (r : Rule) (s : String) : Rule := { r with Status := s }
def setFrom (r : Rule) (s : String) : Rule := { r with From := s }
def setTo (r : Rule) (s : String) : Rule := { r with To := s }
def setPortFrom (r : Rule) (s : String) : Rule := { r with PortFrom := s }
def setPortTo (r : Rule) (s : String) : Rule := { r with PortTo := s }

/-- The Go test `ref != "ANY" && ref != "HOME_NET" && ref != "!HOME_NET"`
guarding literal copy of a referenced IP field. -/
def ipUsable (ref : String) : Bool :=
  decide (ref ≠ "ANY" ∧ ref ≠ "HOME_NET" ∧ ref ≠ "!HOME_NET")

/-- The Go test `ref != "ANY"` guarding literal copy of a referenced port
field. -/
def portUsable (ref : String) : Bool := decide (ref ≠ "ANY")

def resolveFrom (e : NormalizedEvent) (rs : List Rule) (i : Nat) : List Rule :=
  resolveField Rule.From setFrom ipUsable e.SrcIP rs i

def resolveTo (e : NormalizedEvent) (rs : List Rule) (i : Nat) : List Rule :=
  resolveField Rule.To setTo ipUsable e.DstIP rs i

def resolvePortFrom (e : NormalizedEvent) (rs : List Rule) (i : Nat) : List Rule :=
  resolveField Rule.PortFrom setPortFrom portUsable (toString e.SrcPort) rs i

def resolvePortTo (e : NormalizedEvent) (rs : List Rule) (i : Nat) : List Rule :=
  resolveField Rule.PortTo setPortTo portUsable (toString e.DstPort) rs i

/-- The body of the `for i := range d.Rules` loop of `initBackLogRules` at
index `i`: stage 1 (`i = 0`) only has its `Status` set to `"active"`; every
later stage has its `Status` set to `"inactive"` and its four endpoint
fields resolved in source order (From, To, PortFrom, PortTo), each
resolution reading from the list as left by the previous ones. -/
def initStep (e : NormalizedEvent) (rs : List Rule) (i : Nat) : List Rule :=
  if i = 0 then rs.set 0 (setStatus (nthRule rs 0) ("active"))
  else
    resolvePortTo e
      (resolvePortFrom e
        (resolveTo e
          (resolveFrom e
            (rs.set i (setStatus (nthRule rs i) ("inactive"))) i) i) i) i

/-- `initBackLogRules` (lines 199-258): iterate `initStep` over the rule
indices in increasing order, mutating the backlog's private rule list in
place. -/
def initBackLogRules (d : directive) (e : NormalizedEvent) : directive :=
  { d with Rules := (List.range d.Rules.length).foldl (initStep e) d.Rules }

/-- Modelled from the spec: `copyDirective` (in `directive.go`, not part of
the sources under review) "produces a Backlog with a deep copy of the
directive"; in the value-semantics embedding a deep copy is the value
itself. -/
def copyDirective (d : directive) (_e : NormalizedEvent) : directive := d

/-- `createNewBackLog` (lines 178-197).  The identifier generator
`idgen.GenerateID` is external (spec: `newID() -> (string, error)`); its
outcome for this call is passed in as `idRes` (`none` = error).  `now` is
the value `time.Now().Unix()` read at line 191.  Returns `none` exactly when
identifier generation failed. -/
def createNewBackLog (idRes : Option String) (now : Int) (d : directive)
    (e : NormalizedEvent) : Option backLog :=
  match idRes with
  | none => none
  | some bid =>
    let dir0 := copyDirective d e
    let dir1 := initBackLogRules dir0 e
    let dir2 := { dir1 with
      Rules := dir1.Rules.set 0 (let r := nthRule dir1.Rules 0; { r with StartTime := now }) }
    some { ID := bid, Directive := dir2, CurrentStage := 1, HighestStage := d.Rules.length }

/-- The external match predicate `doesEventMatchRule(e, r, connID)`, a pure
boolean function per the spec; the manager is parametric in it. -/
abbrev Matcher := NormalizedEvent → Rule → Nat → Bool

/-- The scan over existing backlogs in `manager` (lines 121-145): walk the
group's backlogs in iteration order, skip any whose directive id differs or
whose `CurrentStage <= 1`, and return the first whose rule at index
`CurrentStage - 1` matches the event. -/
def findMatch (m : Matcher) (dID : Nat) (e : NormalizedEvent) : List backLog → Option backLog
  | [] => none
  | v :: rest =>
    if v.Directive.ID ≠ dID ∨ v.CurrentStage ≤ 1 then findMatch m dID e rest
    else if m e (nthRule v.Directive.Rules (v.CurrentStage - 1)) e.ConnID then some v
    else findMatch m dID e rest

/-- The routing decision one iteration of `manager` takes for an event. -/
inductive ManagerAction where
  /-- An existing backlog matched: its stage-advance is dispatched. -/
  | advance (bid : String) (idx : Nat)
  /-- No existing backlog matched but stage 1 did: create a new backlog. -/
  | create
  /-- Nothing matched: the event is discarded for this directive. -/
  | discard
  deriving Repr, DecidableEq

/-- The routing decision of one iteration of `manager` (lines 114-157):
first-match-wins over existing backlogs, else the directive's stage-1 rule
decides between creation and discard. -/
def managerStep (m : Matcher) (d : directive) (bls : List backLog)
    (e : NormalizedEvent) : ManagerAction :=
  match findMatch m d.ID e bls with
  | some v => .advance v.ID (v.CurrentStage - 1)
  | none =>
    if m e (nthRule d.Rules 0) e.ConnID then .create else .discard

/-- What one iteration of `manager` did, as observable from outside. -/
inductive LoopEffect where
  /-- `go blogs.bl[v.ID].processMatchedEvent(&e, idx)` was dispatched. -/
  | dispatched (bid : String) (idx : Nat)
  /-- A new backlog was created, inserted, and its first event processed
  synchronously. -/
  | created (bid : String)
  /-- `createNewBackLog` failed; a warning was logged and the event dropped. -/
  | createFailWarned
  /-- No rule matched; the event was discarded with no state change. -/
  | discarded
  deriving Repr, DecidableEq

/-- One full iteration of the `manager` loop (lines 112-175) as a state
transformer on the group's backlog collection: the advance path mutates only
the matched backlog's internals (out of scope here), the creation path
inserts the new backlog, the failure and discard paths leave the collection
unchanged. -/
def managerLoopStep (m : Matcher) (idRes : Option String) (now : Int)
    (d : directive) (bls : List backLog) (e : NormalizedEvent) :
    List backLog × LoopEffect :=
  match findMatch m d.ID e bls with
  | some v => (bls, .dispatched v.ID (v.CurrentStage - 1))
  | none =>
    if m e (nthRule d.Rules 0) e.ConnID then
      match createNewBackLog idRes now d e with
      | none => (bls, .createFailWarned)
      | some b => (bls ++ [b], .created b.ID)
    else (bls, .discarded)

/-- The `for { e := <-ch ... }` loop of `manager` over a finite prefix of
the event channel; each element carries the event together with the
identifier-generation outcome and wall-clock reading its iteration would
observe. -/
def managerRun (m : Matcher) (d : directive) :
    List (NormalizedEvent × Option String × Int) → List backLog → List backLog
  | [], bls => bls
  | (e, idRes, now) :: rest, bls =>
      managerRun m d rest (managerLoopStep m idRes now d bls e).1

/-- The order-relevant actions one iteration of `manager` performs, in
program order. -/
inductive LoopEvent where
  /-- `e := <-ch` (line 114). -/
  | recvEvent
  /-- `blogs.Lock()` (line 118): the group's exclusive lock. -/
  | groupLock
  /-- `blogs.Unlock()` (lines 148, 155, 163, 169). -/
  | groupUnlock
  /-- `glock.Lock()` (line 166): the coarse global lock. -/
  | glockLock
  /-- `glock.Unlock()` (line 174). -/
  | glockUnlock
  /-- `blogs.bl[b.ID] = &b` (lines 167-168). -/
  | insertBacklog
  /-- `go blogs.bl[v.ID].processMatchedEvent(&e, idx)` (line 143). -/
  | dispatchAdvance
  /-- the synchronous `blogs.bl[b.ID].processMatchedEvent(&e, 0)` (line 173). -/
  | processFirstEvent
  /-- `log.Warn(...)` on creation failure (line 161). -/
  | logWarnCreateFail
  deriving Repr, DecidableEq

/-- The program-order action trace of one iteration of `manager`, read off
lines 112-175 for each control path. -/
def managerIterTrace (m : Matcher) (idRes : Option String) (now : Int)
    (d : directive) (bls : List backLog) (e : NormalizedEvent) : List LoopEvent :=
  [LoopEvent.recvEvent, LoopEvent.groupLock] ++
  match managerStep m d bls e with
  | .advance _ _ => [LoopEvent.dispatchAdvance, LoopEvent.groupUnlock]
  | .discard => [LoopEvent.groupUnlock]
  | .create =>
    match createNewBackLog idRes now d e with
    | none => [LoopEvent.logWarnCreateFail, LoopEvent.groupUnlock]
    | some _ => [LoopEvent.glockLock, LoopEvent.insertBacklog, LoopEvent.groupUnlock,
                 LoopEvent.processFirstEvent, LoopEvent.glockUnlock]

/-- `removeBackLog` (lines 45-52) on one group's collection: Go's
`delete(m.blogs.bl, m.ID)` removes the entry keyed `ID` (Go map keys are
unique; on the list model, every entry carrying that ID). -/
def removeBackLog (bl : List backLog) (bid : String) : List backLog :=
  bl.filter (fun b => b.ID ≠ bid)

/-- A removal-channel message: the index of the referenced group in
`allBacklogs` (the Go message carries a pointer to it) and the backlog ID to
delete. -/
structure removalChannelMsg where
  blogs : Nat
  ID : String

/-- Processing one removal-channel message against the global registry
`allBacklogs` (modelled as the list of the groups' collections): delete the
entry from the referenced group only. -/
def removeBackLogGlobal (groups : List (List backLog)) (msg : removalChannelMsg) :
    List (List backLog) :=
  groups.set msg.blogs (removeBackLog (groups.getD msg.blogs []) msg.ID)

/-- The lock/delete action order of `removeBackLog` (lines 46-51): group
exclusive lock, then coarse global lock, delete, release global, release
group (the deferred unlock). -/
inductive RemovalEvent where
  | groupLock | glockLock | deleteEntry | glockUnlock | groupUnlock
  deriving Repr, DecidableEq

/-- The program-order action trace of `removeBackLog`. -/
def removeBackLogTrace : List RemovalEvent :=
  [RemovalEvent.groupLock, RemovalEvent.glockLock, RemovalEvent.deleteEntry,
   RemovalEvent.glockUnlock, RemovalEvent.groupUnlock]

/-- One watchdog sweep (lines 78-96): fold over all groups accumulating the
live count `bLen` and the IDs on which `checkExpired()` is invoked; a group
observed empty is skipped (`continue` at line 87) before any iteration of
its backlogs. -/
def sweep (groups : List (List backLog)) : Nat × List String :=
  groups.foldl
    (fun acc g =>
      if g.length = 0 then acc
      else (acc.1 + g.length, acc.2 ++ g.map backLog.ID))
    (0, [])

/-! ## Generic list lemmas -/

theorem getD_set_self {α : Type} (l : List α) (i : Nat) (v d : α) (h : i < l.length) :
    (l.set i v).getD i d = v := by
  simp [List.getD, List.getElem?_set_self, h]

theorem getD_set_ne {α : Type} (l : List α) (i j : Nat) (v d : α) (h : i ≠ j) :
    (l.set i v).getD j d = l.getD j d := by
  simp [List.getD, List.getElem?_set_ne h]

theorem set_getD_self {α : Type} (l : List α) (i : Nat) (d : α) (h : i < l.length) :
    l.set i (l.getD i d) = l := by
  induction l generalizing i with
  | nil => simp at h
  | cons a t ih =>
    cases i with
    | zero => simp [List.getD]
    | succ n =>
      simp only [List.length_cons, Nat.succ_lt_succ_iff] at h
      simp only [List.getD, List.getElem?_cons_succ, List.set_cons_succ, List.get?_cons_succ]
      have := ih n h
      simp only [List.getD] at this
      rw [this]

theorem getD_map {α β : Type} (f : α → β) (l : List α) (i : Nat) (d : α) :
    (l.map f).getD i (f d) = f (l.getD i d) := by
  simp only [List.getD, List.getElem?_map]
  cases l[i]? <;> simp

/-! ## The per-field view of reference resolution

Each of the four endpoint fields evolves independently under
`initBackLogRules` (each resolution block reads and writes only its own
field).  The following development characterises that evolution on the
projected `List String` of one field's values; it is then transported to the
rule list through `List.map` commutation lemmas. -/

/-- The effect of `initStep` at index `i` on one field's value list:
stage 1 (`i = 0`) is never resolved; otherwise, if the value at `i` parses
as a reference `:v`, replace it by the referenced value at `v-1` when
`usable`, by the event-derived value `ev` otherwise. -/
def fieldStep (u : String → Bool) (ev : String) (fs : List String) (i : Nat) : List String :=
  if i = 0 then fs
  else
    match refToDigit (fs.getD i "") with
    | none => fs
    | some v =>
      let ref := fs.getD (v - 1) ""
      if u ref then fs.set i ref else fs.set i ev

/-- Prefix of the resolution fold on one field's value list. -/
def fieldFold (u : String → Bool) (ev : String) (fs : List String) (k : Nat) : List String :=
  (List.range k).foldl (fieldStep u ev) fs

/-- Full resolution of one field's value list. -/
def fieldResolve (u : String → Bool) (ev : String) (fs : List String) : List String :=
  fieldFold u ev fs fs.length

theorem length_fieldStep (u : String → Bool) (ev : String) (fs : List String) (i : Nat) :
    (fieldStep u ev fs i).length = fs.length := by
  unfold fieldStep
  split
  · rfl
  · split
    · rfl
    · dsimp only
      split <;> simp

theorem fieldFold_succ (u : String → Bool) (ev : String) (fs : List String) (k : Nat) :
    fieldFold u ev fs (k + 1) = fieldStep u ev (fieldFold u ev fs k) k := by
  unfold fieldFold
  rw [List.range_succ, List.foldl_append, List.foldl_cons, List.foldl_nil]

theorem length_fieldFold (u : String → Bool) (ev : String) (fs : List String) (k : Nat) :
    (fieldFold u ev fs k).length = fs.length := by
  induction k with
  | zero => rfl
  | succ k ih => rw [fieldFold_succ, length_fieldStep, ih]

theorem fieldStep_getD_ne (u : String → Bool) (ev : String) (fs : List String)
    (i j : Nat) (h : i ≠ j) : (fieldStep u ev fs i).getD j "" = fs.getD j "" := by
  unfold fieldStep
  split
  · rfl
  · split
    · rfl
    · dsimp only
      split <;> exact getD_set_ne fs i j _ _ h

theorem fieldFold_getD_of_le (u : String → Bool) (ev : String) (fs : List String)
    (k j : Nat) (h : k ≤ j) : (fieldFold u ev fs k).getD j "" = fs.getD j "" := by
  induction k with
  | zero => rfl
  | succ k ih =>
    rw [fieldFold_succ, fieldStep_getD_ne]
    · exact ih (Nat.le_of_succ_le h)
    · exact Nat.ne_of_lt (Nat.lt_of_succ_le h)

theorem fieldFold_getD_stable (u : String → Bool) (ev : String) (fs : List String)
    (k m j : Nat) (hkm : k ≤ m) (hj : j < k) :
    (fieldFold u ev fs m).getD j "" = (fieldFold u ev fs k).getD j "" := by
  induction m with
  | zero => cases Nat.le_zero.mp hkm; rfl
  | succ m ih =>
    rcases Nat.lt_or_ge k (m + 1) with hlt | hge
    · have hk : k ≤ m := Nat.lt_succ_iff.mp hlt
      rw [fieldFold_succ, fieldStep_getD_ne, ih hk]
      exact Nat.ne_of_gt (Nat.lt_of_lt_of_le hj hk)
    · have : k = m + 1 := Nat.le_antisymm hkm hge
      rw [this]

theorem fieldStep_getD_zero (u : String → Bool) (ev : String) (fs : List String) (i : Nat) :
    (fieldStep u ev fs i).getD 0 "" = fs.getD 0 "" := by
  rcases Nat.eq_zero_or_pos i with h | h
  · subst h; rfl
  · exact fieldStep_getD_ne u ev fs i 0 (Nat.ne_of_gt h)

theorem fieldFold_getD_zero (u : String → Bool) (ev : String) (fs : List String) (k : Nat) :
    (fieldFold u ev fs k).getD 0 "" = fs.getD 0 "" := by
  induction k with
  | zero => rfl
  | succ k ih => rw [fieldFold_succ, fieldStep_getD_zero, ih]

/-- Final value of one field at a positive in-range index: the template
value when it is not a reference; otherwise the referenced value — read from
the *resolved* list when the reference points below `i` (already processed)
and from the *template* list otherwise — if `usable`, and the event-derived
value if not. -/
theorem fieldResolve_getD_char (u : String → Bool) (ev : String) (fs : List String)
    (i : Nat) (h0 : 0 < i) (hn : i < fs.length) :
    (fieldResolve u ev fs).getD i "" =
      match refToDigit (fs.getD i "") with
      | none => fs.getD i ""
      | some v =>
        let ref := if v - 1 < i then (fieldResolve u ev fs).getD (v - 1) ""
                   else fs.getD (v - 1) ""
        if u ref then ref else ev := by
  have hstep : (fieldResolve u ev fs).getD i "" = (fieldStep u ev (fieldFold u ev fs i) i).getD i "" := by
    rw [show fieldStep u ev (fieldFold u ev fs i) i = fieldFold u ev fs (i + 1) from
          (fieldFold_succ u ev fs i).symm]
    exact fieldFold_getD_stable u ev fs (i + 1) fs.length i hn (Nat.lt_succ_self i)
  have hcur : (fieldFold u ev fs i).getD i "" = fs.getD i "" :=
    fieldFold_getD_of_le u ev fs i i (Nat.le_refl i)
  rw [hstep]
  unfold fieldStep
  rw [if_neg (Nat.ne_of_gt h0), hcur]
  cases href : refToDigit (fs.getD i "") with
  | none => exact hcur
  | some v =>
    dsimp only
    have hlen : (fieldFold u ev fs i).length = fs.length := length_fieldFold u ev fs i
    have href : (fieldFold u ev fs i).getD (v - 1) "" =
        (if v - 1 < i then (fieldResolve u ev fs).getD (v - 1) "" else fs.getD (v - 1) "") := by
      split
      · rename_i hvi
        exact (fieldFold_getD_stable u ev fs i fs.length (v - 1) (Nat.le_of_lt hn) hvi).symm
      · rename_i hvi
        exact fieldFold_getD_of_le u ev fs i (v - 1) (Nat.le_of_not_lt hvi)
    rw [href]
    split <;> split <;> exact getD_set_self _ i _ "" (hlen ▸ hn)

theorem getD_of_length_le {α : Type} (l : List α) (i : Nat) (d : α) (h : l.length ≤ i) :
    l.getD i d = d := by
  simp [List.getD, List.getElem?_eq_none h]

theorem refToDigit_empty : refToDigit ("") = none := rfl

/-- Totality of the resolution on one field: when the template has no
reference at stage 1, every reference points to a strictly earlier stage,
and the event-derived value is not itself reference-shaped, no resolved
value parses as a reference. -/
theorem fieldResolve_noRef (u : String → Bool) (ev : String) (fs : List String)
    (hev : refToDigit ev = none)
    (h0 : refToDigit (fs.getD 0 "") = none)
    (hb : ∀ i, 0 < i → i < fs.length →
      ∀ K, refToDigit (fs.getD i "") = some K → 1 ≤ K ∧ K ≤ i) :
    ∀ i, refToDigit ((fieldResolve u ev fs).getD i "") = none := by
  intro i
  induction i using Nat.strong_induction_on with
  | _ i ih =>
    rcases Nat.lt_or_ge i fs.length with hn | hn
    · rcases Nat.eq_zero_or_pos i with hz | hp
      · subst hz
        rw [show fieldResolve u ev fs = fieldFold u ev fs fs.length from rfl,
            fieldFold_getD_zero]
        exact h0
      · rw [fieldResolve_getD_char u ev fs i hp hn]
        cases href : refToDigit (fs.getD i "") with
        | none => exact href
        | some K =>
          dsimp only
          obtain ⟨hK1, hKi⟩ := hb i hp hn K href
          have hKlt : K - 1 < i := Nat.lt_of_lt_of_le (Nat.sub_lt hK1 Nat.one_pos) hKi
          rw [if_pos hKlt]
          split
          · exact ih (K - 1) hKlt
          · exact hev
    · rw [getD_of_length_le]
      · exact refToDigit_empty
      · rw [show (fieldResolve u ev fs).length = fs.length from length_fieldFold u ev fs fs.length]
        exact hn

/-- A field list whose positive-index values parse as no reference is a
fixpoint of the resolution fold. -/
theorem fieldFold_fixpoint (u : String → Bool) (ev : String) (fs : List String)
    (hnr : ∀ i, 0 < i → refToDigit (fs.getD i "") = none) :
    ∀ k, fieldFold u ev fs k = fs := by
  intro k
  induction k with
  | zero => rfl
  | succ k ih =>
    rw [fieldFold_succ, ih]
    unfold fieldStep
    rcases Nat.eq_zero_or_pos k with hz | hp
    · rw [if_pos hz]
    · rw [if_neg (Nat.ne_of_gt hp), hnr k hp]

/-- Resolution of one field is idempotent under the totality hypotheses. -/
theorem fieldResolve_idem (u : String → Bool) (ev : String) (fs : List String)
    (hev : refToDigit ev = none)
    (h0 : refToDigit (fs.getD 0 "") = none)
    (hb : ∀ i, 0 < i → i < fs.length →
      ∀ K, refToDigit (fs.getD i "") = some K → 1 ≤ K ∧ K ≤ i) :
    fieldResolve u ev (fieldResolve u ev fs) = fieldResolve u ev fs :=
  fieldFold_fixpoint u ev (fieldResolve u ev fs)
    (fun i _ => fieldResolve_noRef u ev fs hev h0 hb i) (fieldResolve u ev fs).length

/-! ## Transport between the rule list and the per-field value lists -/

theorem nthRule_fromVal (rs : List Rule) (i : Nat) :
    (nthRule rs i).From = (rs.map Rule.From).getD i "" :=
  (getD_map Rule.From rs i dfltRule).symm

theorem nthRule_toVal (rs : List Rule) (i : Nat) :
    (nthRule rs i).To = (rs.map Rule.To).getD i "" :=
  (getD_map Rule.To rs i dfltRule).symm

theorem nthRule_portFromVal (rs : List Rule) (i : Nat) :
    (nthRule rs i).PortFrom = (rs.map Rule.PortFrom).getD i "" :=
  (getD_map Rule.PortFrom rs i dfltRule).symm

theorem nthRule_portToVal (rs : List Rule) (i : Nat) :
    (nthRule rs i).PortTo = (rs.map Rule.PortTo).getD i "" :=
  (getD_map Rule.PortTo rs i dfltRule).symm

theorem nthRule_statusVal (rs : List Rule) (i : Nat) :
    (nthRule rs i).Status = (rs.map Rule.Status).getD i "" :=
  (getD_map Rule.Status rs i dfltRule).symm

/-- Writing back a transformed version of the rule at `i` leaves any
projection the transformation preserves unchanged. -/
theorem map_set_update (g : Rule → String) (f : Rule → Rule) (hf : ∀ r, g (f r) = g r)
    (rs : List Rule) (i : Nat) :
    (rs.set i (f (nthRule rs i))).map g = rs.map g := by
  rcases Nat.lt_or_ge i rs.length with h | h
  · have h2 : i < (rs.map g).length := by rw [List.length_map]; exact h
    calc (rs.set i (f (nthRule rs i))).map g
        = (rs.map g).set i (g (f (nthRule rs i))) := by rw [List.map_set]
      _ = (rs.map g).set i (g (nthRule rs i)) := by rw [hf]
      _ = (rs.map g).set i ((rs.map g).getD i (g dfltRule)) := by rw [getD_map]; rfl
      _ = rs.map g := set_getD_self (rs.map g) i (g dfltRule) h2
  · rw [List.set_eq_of_length_le h]

/-- A resolution block leaves any projection its setter preserves
unchanged. -/
theorem map_resolveField_pres (get : Rule → String) (set : Rule → String → Rule)
    (g : Rule → String) (hpres : ∀ r s, g (set r s) = g r)
    (u : String → Bool) (ev : String) (rs : List Rule) (i : Nat) :
    (resolveField get set u ev rs i).map g = rs.map g := by
  unfold resolveField
  cases refToDigit (get (nthRule rs i)) with
  | none => rfl
  | some v =>
    dsimp only
    split
    · exact map_set_update g (fun r => set r _) (fun r => hpres r _) rs i
    · exact map_set_update g (fun r => set r ev) (fun r => hpres r ev) rs i

/-- A resolution block acts on its own projection exactly as `fieldStep`. -/
theorem map_resolveField_self (get : Rule → String) (set : Rule → String → Rule)
    (hgs : ∀ r s, get (set r s) = s) (hd : get dfltRule = "")
    (u : String → Bool) (ev : String) (rs : List Rule) (i : Nat) (hi : i ≠ 0) :
    (resolveField get set u ev rs i).map get = fieldStep u ev (rs.map get) i := by
  have hg : ∀ j, (rs.map get).getD j "" = get (nthRule rs j) := by
    intro j
    rw [← hd, getD_map]
    rfl
  unfold resolveField fieldStep
  rw [if_neg hi, hg i]
  cases href : refToDigit (get (nthRule rs i)) with
  | none => rfl
  | some v =>
    dsimp only
    rw [hg (v - 1)]
    split
    · rw [List.map_set, hgs]
    · rw [List.map_set, hgs]

/-- Prefix of the `initBackLogRules` loop on the rule list itself. -/
def initFold (e : NormalizedEvent) (rs : List Rule) (k : Nat) : List Rule :=
  (List.range k).foldl (initStep e) rs

theorem initFold_succ (e : NormalizedEvent) (rs : List Rule) (k : Nat) :
    initFold e rs (k + 1) = initStep e (initFold e rs k) k := by
  unfold initFold
  rw [List.range_succ, List.foldl_append, List.foldl_cons, List.foldl_nil]

theorem map_from_initStep (e : NormalizedEvent) (rs : List Rule) (i : Nat) :
    (initStep e rs i).map Rule.From = fieldStep ipUsable e.SrcIP (rs.map Rule.From) i := by
  unfold initStep
  rcases Nat.eq_zero_or_pos i with hz | hp
  · subst hz
    rw [if_pos rfl, map_set_update Rule.From (fun r => setStatus r ("active")) (fun r => rfl) rs 0]
    rfl
  · rw [if_neg (Nat.ne_of_gt hp)]
    unfold resolvePortTo resolvePortFrom resolveTo resolveFrom
    rw [map_resolveField_pres Rule.PortTo setPortTo Rule.From (fun r s => rfl),
        map_resolveField_pres Rule.PortFrom setPortFrom Rule.From (fun r s => rfl),
        map_resolveField_pres Rule.To setTo Rule.From (fun r s => rfl),
        map_resolveField_self Rule.From setFrom (fun r s => rfl) rfl ipUsable e.SrcIP _ i
          (Nat.ne_of_gt hp),
        map_set_update Rule.From (fun r => setStatus r ("inactive")) (fun r => rfl) rs i]

theorem map_to_initStep (e : NormalizedEvent) (rs : List Rule) (i : Nat) :
    (initStep e rs i).map Rule.To = fieldStep ipUsable e.DstIP (rs.map Rule.To) i := by
  unfold initStep
  rcases Nat.eq_zero_or_pos i with hz | hp
  · subst hz
    rw [if_pos rfl, map_set_update Rule.To (fun r => setStatus r ("active")) (fun r => rfl) rs 0]
    rfl
  · rw [if_neg (Nat.ne_of_gt hp)]
    unfold resolvePortTo resolvePortFrom resolveTo resolveFrom
    rw [map_resolveField_pres Rule.PortTo setPortTo Rule.To (fun r s => rfl),
        map_resolveField_pres Rule.PortFrom setPortFrom Rule.To (fun r s => rfl),
        map_resolveField_self Rule.To setTo (fun r s => rfl) rfl ipUsable e.DstIP _ i
          (Nat.ne_of_gt hp),
        map_resolveField_pres Rule.From setFrom Rule.To (fun r s => rfl),
        map_set_update Rule.To (fun r => setStatus r ("inactive")) (fun r => rfl) rs i]

theorem map_portFrom_initStep (e : NormalizedEvent) (rs : List Rule) (i : Nat) :
    (initStep e rs i).map Rule.PortFrom
      = fieldStep portUsable (toString e.SrcPort) (rs.map Rule.PortFrom) i := by
  unfold initStep
  rcases Nat.eq_zero_or_pos i with hz | hp
  · subst hz
    rw [if_pos rfl,
        map_set_update Rule.PortFrom (fun r => setStatus r ("active")) (fun r => rfl) rs 0]
    rfl
  · rw [if_neg (Nat.ne_of_gt hp)]
    unfold resolvePortTo resolvePortFrom resolveTo resolveFrom
    rw [map_resolveField_pres Rule.PortTo setPortTo Rule.PortFrom (fun r s => rfl),
        map_resolveField_self Rule.PortFrom setPortFrom (fun r s => rfl) rfl portUsable
          (toString e.SrcPort) _ i (Nat.ne_of_gt hp),
        map_resolveField_pres Rule.To setTo Rule.PortFrom (fun r s => rfl),
        map_resolveField_pres Rule.From setFrom Rule.PortFrom (fun r s => rfl),
        map_set_update Rule.PortFrom (fun r => setStatus r ("inactive")) (fun r => rfl) rs i]

theorem map_portTo_initStep (e : NormalizedEvent) (rs : List Rule) (i : Nat) :
    (initStep e rs i).map Rule.PortTo
      = fieldStep portUsable (toString e.DstPort) (rs.map Rule.PortTo) i := by
  unfold initStep
  rcases Nat.eq_zero_or_pos i with hz | hp
  · subst hz
    rw [if_pos rfl,
        map_set_update Rule.PortTo (fun r => setStatus r ("active")) (fun r => rfl) rs 0]
    rfl
  · rw [if_neg (Nat.ne_of_gt hp)]
    unfold resolvePortTo resolvePortFrom resolveTo resolveFrom
    rw [map_resolveField_self Rule.PortTo setPortTo (fun r s => rfl) rfl portUsable
          (toString e.DstPort) _ i (Nat.ne_of_gt hp),
        map_resolveField_pres Rule.PortFrom setPortFrom Rule.PortTo (fun r s => rfl),
        map_resolveField_pres Rule.To setTo Rule.PortTo (fun r s => rfl),
        map_resolveField_pres Rule.From setFrom Rule.PortTo (fun r s => rfl),
        map_set_update Rule.PortTo (fun r => setStatus r ("inactive")) (fun r => rfl) rs i]

theorem map_from_initFold (e : NormalizedEvent) (rs : List Rule) (k : Nat) :
    (initFold e rs k).map Rule.From = fieldFold ipUsable e.SrcIP (rs.map Rule.From) k := by
  induction k with
  | zero => rfl
  | succ k ih => rw [initFold_succ, fieldFold_succ, map_from_initStep, ih]

theorem map_to_initFold (e : NormalizedEvent) (rs : List Rule) (k : Nat) :
    (initFold e rs k).map Rule.To = fieldFold ipUsable e.DstIP (rs.map Rule.To) k := by
  induction k with
  | zero => rfl
  | succ k ih => rw [initFold_succ, fieldFold_succ, map_to_initStep, ih]

theorem map_portFrom_initFold (e : NormalizedEvent) (rs : List Rule) (k : Nat) :
    (initFold e rs k).map Rule.PortFrom
      = fieldFold portUsable (toString e.SrcPort) (rs.map Rule.PortFrom) k := by
  induction k with
  | zero => rfl
  | succ k ih => rw [initFold_succ, fieldFold_succ, map_portFrom_initStep, ih]

theorem map_portTo_initFold (e : NormalizedEvent) (rs : List Rule) (k : Nat) :
    (initFold e rs k).map Rule.PortTo
      = fieldFold portUsable (toString e.DstPort) (rs.map Rule.PortTo) k := by
  induction k with
  | zero => rfl
  | succ k ih => rw [initFold_succ, fieldFold_succ, map_portTo_initStep, ih]

theorem length_initFold (e : NormalizedEvent) (rs : List Rule) (k : Nat) :
    (initFold e rs k).length = rs.length := by
  have h := congrArg List.length (map_from_initFold e rs k)
  rw [List.length_map, length_fieldFold, List.length_map] at h
  exact h

theorem initBackLogRules_rules (d : directive) (e : NormalizedEvent) :
    (initBackLogRules d e).Rules = initFold e d.Rules d.Rules.length := rfl

theorem initBackLogRules_length (d : directive) (e : NormalizedEvent) :
    (initBackLogRules d e).Rules.length = d.Rules.length :=
  length_initFold e d.Rules d.Rules.length

/-! ## Directive-level characterisation of `initBackLogRules` -/

theorem map_from_initBackLogRules (d : directive) (e : NormalizedEvent) :
    (initBackLogRules d e).Rules.map Rule.From
      = fieldResolve ipUsable e.SrcIP (d.Rules.map Rule.From) := by
  rw [initBackLogRules_rules, map_from_initFold]
  unfold fieldResolve
  rw [List.length_map]

theorem map_to_initBackLogRules (d : directive) (e : NormalizedEvent) :
    (initBackLogRules d e).Rules.map Rule.To
      = fieldResolve ipUsable e.DstIP (d.Rules.map Rule.To) := by
  rw [initBackLogRules_rules, map_to_initFold]
  unfold fieldResolve
  rw [List.length_map]

theorem map_portFrom_initBackLogRules (d : directive) (e : NormalizedEvent) :
    (initBackLogRules d e).Rules.map Rule.PortFrom
      = fieldResolve portUsable (toString e.SrcPort) (d.Rules.map Rule.PortFrom) := by
  rw [initBackLogRules_rules, map_portFrom_initFold]
  unfold fieldResolve
  rw [List.length_map]

theorem map_portTo_initBackLogRules (d : directive) (e : NormalizedEvent) :
    (initBackLogRules d e).Rules.map Rule.PortTo
      = fieldResolve portUsable (toString e.DstPort) (d.Rules.map Rule.PortTo) := by
  rw [initBackLogRules_rules, map_portTo_initFold]
  unfold fieldResolve
  rw [List.length_map]

/-- Final `From` value of a positive in-range stage. -/
theorem initBackLogRules_from_char (d : directive) (e : NormalizedEvent) (i : Nat)
    (h0 : 0 < i) (hn : i < d.Rules.length) :
    (nthRule (initBackLogRules d e).Rules i).From =
      match refToDigit ((nthRule d.Rules i).From) with
      | none => (nthRule d.Rules i).From
      | some v =>
        let ref := if v - 1 < i then (nthRule (initBackLogRules d e).Rules (v - 1)).From
                   else (nthRule d.Rules (v - 1)).From
        if ipUsable ref then ref else e.SrcIP := by
  have hchar := fieldResolve_getD_char ipUsable e.SrcIP (d.Rules.map Rule.From) i h0
    (by rw [List.length_map]; exact hn)
  rw [← map_from_initBackLogRules d e] at hchar
  simp only [← nthRule_fromVal] at hchar
  exact hchar

/-- Final `To` value of a positive in-range stage. -/
theorem initBackLogRules_to_char (d : directive) (e : NormalizedEvent) (i : Nat)
    (h0 : 0 < i) (hn : i < d.Rules.length) :
    (nthRule (initBackLogRules d e).Rules i).To =
      match refToDigit ((nthRule d.Rules i).To) with
      | none => (nthRule d.Rules i).To
      | some v =>
        let ref := if v - 1 < i then (nthRule (initBackLogRules d e).Rules (v - 1)).To
                   else (nthRule d.Rules (v - 1)).To
        if ipUsable ref then ref else e.DstIP := by
  have hchar := fieldResolve_getD_char ipUsable e.DstIP (d.Rules.map Rule.To) i h0
    (by rw [List.length_map]; exact hn)
  rw [← map_to_initBackLogRules d e] at hchar
  simp only [← nthRule_toVal] at hchar
  exact hchar

/-- Final `PortFrom` value of a positive in-range stage. -/
theorem initBackLogRules_portFrom_char (d : directive) (e : NormalizedEvent) (i : Nat)
    (h0 : 0 < i) (hn : i < d.Rules.length) :
    (nthRule (initBackLogRules d e).Rules i).PortFrom =
      match refToDigit ((nthRule d.Rules i).PortFrom) with
      | none => (nthRule d.Rules i).PortFrom
      | some v =>
        let ref := if v - 1 < i then (nthRule (initBackLogRules d e).Rules (v - 1)).PortFrom
                   else (nthRule d.Rules (v - 1)).PortFrom
        if portUsable ref then ref else toString e.SrcPort := by
  have hchar := fieldResolve_getD_char portUsable (toString e.SrcPort)
    (d.Rules.map Rule.PortFrom) i h0 (by rw [List.length_map]; exact hn)
  rw [← map_portFrom_initBackLogRules d e] at hchar
  simp only [← nthRule_portFromVal] at hchar
  exact hchar

/-- Final `PortTo` value of a positive in-range stage. -/
theorem initBackLogRules_portTo_char (d : directive) (e : NormalizedEvent) (i : Nat)
    (h0 : 0 < i) (hn : i < d.Rules.length) :
    (nthRule (initBackLogRules d e).Rules i).PortTo =
      match refToDigit ((nthRule d.Rules i).PortTo) with
      | none => (nthRule d.Rules i).PortTo
      | some v =>
        let ref := if v - 1 < i then (nthRule (initBackLogRules d e).Rules (v - 1)).PortTo
                   else (nthRule d.Rules (v - 1)).PortTo
        if portUsable ref then ref else toString e.DstPort := by
  have hchar := fieldResolve_getD_char portUsable (toString e.DstPort)
    (d.Rules.map Rule.PortTo) i h0 (by rw [List.length_map]; exact hn)
  rw [← map_portTo_initBackLogRules d e] at hchar
  simp only [← nthRule_portToVal] at hchar
  exact hchar

/-- Stage 1 is never resolved: its four endpoint fields come out as
authored. -/
theorem initBackLogRules_zero_fields (d : directive) (e : NormalizedEvent) :
    (nthRule (initBackLogRules d e).Rules 0).From = (nthRule d.Rules 0).From ∧
    (nthRule (initBackLogRules d e).Rules 0).To = (nthRule d.Rules 0).To ∧
    (nthRule (initBackLogRules d e).Rules 0).PortFrom = (nthRule d.Rules 0).PortFrom ∧
    (nthRule (initBackLogRules d e).Rules 0).PortTo = (nthRule d.Rules 0).PortTo := by
  refine ⟨?_, ?_, ?_, ?_⟩
  · have h := fieldFold_getD_zero ipUsable e.SrcIP (d.Rules.map Rule.From)
      (d.Rules.map Rule.From).length
    rw [show fieldFold ipUsable e.SrcIP (d.Rules.map Rule.From) (d.Rules.map Rule.From).length
          = fieldResolve ipUsable e.SrcIP (d.Rules.map Rule.From) from rfl,
        ← map_from_initBackLogRules d e] at h
    simp only [← nthRule_fromVal] at h
    exact h
  · have h := fieldFold_getD_zero ipUsable e.DstIP (d.Rules.map Rule.To)
      (d.Rules.map Rule.To).length
    rw [show fieldFold ipUsable e.DstIP (d.Rules.map Rule.To) (d.Rules.map Rule.To).length
          = fieldResolve ipUsable e.DstIP (d.Rules.map Rule.To) from rfl,
        ← map_to_initBackLogRules d e] at h
    simp only [← nthRule_toVal] at h
    exact h
  · have h := fieldFold_getD_zero portUsable (toString e.SrcPort) (d.Rules.map Rule.PortFrom)
      (d.Rules.map Rule.PortFrom).length
    rw [show fieldFold portUsable (toString e.SrcPort) (d.Rules.map Rule.PortFrom)
            (d.Rules.map Rule.PortFrom).length
          = fieldResolve portUsable (toString e.SrcPort) (d.Rules.map Rule.PortFrom) from rfl,
        ← map_portFrom_initBackLogRules d e] at h
    simp only [← nthRule_portFromVal] at h
    exact h
  · have h := fieldFold_getD_zero portUsable (toString e.DstPort) (d.Rules.map Rule.PortTo)
      (d.Rules.map Rule.PortTo).length
    rw [show fieldFold portUsable (toString e.DstPort) (d.Rules.map Rule.PortTo)
            (d.Rules.map Rule.PortTo).length
          = fieldResolve portUsable (toString e.DstPort) (d.Rules.map Rule.PortTo) from rfl,
        ← map_portTo_initBackLogRules d e] at h
    simp only [← nthRule_portToVal] at h
    exact h

/-! ## Status evolution -/

/-- The effect of `initStep` at index `i` on the status value list. -/
def statusStep (ss : List String) (i : Nat) : List String :=
  if i = 0 then ss.set 0 ("active") else ss.set i ("inactive")

def statusFold (ss : List String) (k : Nat) : List String :=
  (List.range k).foldl statusStep ss

theorem statusFold_succ (ss : List String) (k : Nat) :
    statusFold ss (k + 1) = statusStep (statusFold ss k) k := by
  unfold statusFold
  rw [List.range_succ, List.foldl_append, List.foldl_cons, List.foldl_nil]

theorem length_statusStep (ss : List String) (i : Nat) :
    (statusStep ss i).length = ss.length := by
  unfold statusStep
  split <;> simp

theorem length_statusFold (ss : List String) (k : Nat) :
    (statusFold ss k).length = ss.length := by
  induction k with
  | zero => rfl
  | succ k ih => rw [statusFold_succ, length_statusStep, ih]

theorem statusFold_getD (ss : List String) (k j : Nat) (hjk : j < k) (hjl : j < ss.length) :
    (statusFold ss k).getD j "" = if j = 0 then "active" else "inactive" := by
  induction k with
  | zero => exact absurd hjk (Nat.not_lt_zero j)
  | succ k ih =>
    rw [statusFold_succ]
    rcases Nat.lt_or_ge j k with hlt | hge
    · have hne : k ≠ j := Nat.ne_of_gt hlt
      unfold statusStep
      split
      · rename_i hk0
        subst hk0
        cases j with
        | zero => exact absurd hlt (Nat.not_lt_zero 0)
        | succ m => rw [getD_set_ne _ 0 (m + 1) _ _ (by simp), ih hlt]
      · rw [getD_set_ne _ k j _ _ hne, ih hlt]
    · have hj : j = k := Nat.le_antisymm (Nat.lt_succ_iff.mp hjk) hge
      subst hj
      have hl : j < (statusFold ss j).length := by rw [length_statusFold]; exact hjl
      unfold statusStep
      split
      · rename_i hk0
        subst hk0
        exact getD_set_self _ 0 _ "" (by rw [length_statusFold]; exact hjl)
      · exact getD_set_self _ j _ "" hl

theorem map_status_initStep (e : NormalizedEvent) (rs : List Rule) (i : Nat) :
    (initStep e rs i).map Rule.Status = statusStep (rs.map Rule.Status) i := by
  unfold initStep statusStep
  rcases Nat.eq_zero_or_pos i with hz | hp
  · subst hz
    rw [if_pos rfl, if_pos rfl, List.map_set]
    rfl
  · rw [if_neg (Nat.ne_of_gt hp), if_neg (Nat.ne_of_gt hp)]
    unfold resolvePortTo resolvePortFrom resolveTo resolveFrom
    rw [map_resolveField_pres Rule.PortTo setPortTo Rule.Status (fun r s => rfl),
        map_resolveField_pres Rule.PortFrom setPortFrom Rule.Status (fun r s => rfl),
        map_resolveField_pres Rule.To setTo Rule.Status (fun r s => rfl),
        map_resolveField_pres Rule.From setFrom Rule.Status (fun r s => rfl),
        List.map_set]
    rfl

theorem map_status_initFold (e : NormalizedEvent) (rs : List Rule) (k : Nat) :
    (initFold e rs k).map Rule.Status = statusFold (rs.map Rule.Status) k := by
  induction k with
  | zero => rfl
  | succ k ih => rw [initFold_succ, statusFold_succ, map_status_initStep, ih]

/-- Final statuses: stage 1 `"active"`, every later stage `"inactive"`. -/
theorem initBackLogRules_status (d : directive) (e : NormalizedEvent) (j : Nat)
    (hj : j < d.Rules.length) :
    (nthRule (initBackLogRules d e).Rules j).Status
      = if j = 0 then "active" else "inactive" := by
  have h := statusFold_getD (d.Rules.map Rule.Status) d.Rules.length j hj
    (by rw [List.length_map]; exact hj)
  rw [← map_status_initFold, ← initBackLogRules_rules] at h
  simp only [← nthRule_statusVal] at h
  exact h

/-! ## Totality and idempotence of reference resolution -/

/-- No field of `r` parses as a stage reference. -/
def ruleNoRef (r : Rule) : Bool :=
  (refToDigit r.From).isNone && (refToDigit r.To).isNone &&
  (refToDigit r.PortFrom).isNone && (refToDigit r.PortTo).isNone

theorem ruleNoRef_iff (r : Rule) :
    ruleNoRef r = true ↔
      refToDigit r.From = none ∧ refToDigit r.To = none ∧
      refToDigit r.PortFrom = none ∧ refToDigit r.PortTo = none := by
  unfold ruleNoRef
  simp [Bool.and_eq_true, Option.isNone_iff_eq_none, and_assoc]

/-- Every reference among the four fields of `r` names a stage in `[1, n]`. -/
def ruleRefsBelow (r : Rule) (n : Nat) : Bool :=
  (refToDigit r.From).all (fun K => decide (1 ≤ K ∧ K ≤ n)) &&
  (refToDigit r.To).all (fun K => decide (1 ≤ K ∧ K ≤ n)) &&
  (refToDigit r.PortFrom).all (fun K => decide (1 ≤ K ∧ K ≤ n)) &&
  (refToDigit r.PortTo).all (fun K => decide (1 ≤ K ∧ K ≤ n))

theorem ruleRefsBelow_iff (r : Rule) (n : Nat) :
    ruleRefsBelow r n = true ↔
      (∀ K, refToDigit r.From = some K → 1 ≤ K ∧ K ≤ n) ∧
      (∀ K, refToDigit r.To = some K → 1 ≤ K ∧ K ≤ n) ∧
      (∀ K, refToDigit r.PortFrom = some K → 1 ≤ K ∧ K ≤ n) ∧
      (∀ K, refToDigit r.PortTo = some K → 1 ≤ K ∧ K ≤ n) := by
  unfold ruleRefsBelow
  simp only [Bool.and_eq_true, and_assoc]
  constructor
  · rintro ⟨h1, h2, h3, h4⟩
    refine ⟨?_, ?_, ?_, ?_⟩ <;>
      first
      | · intro K hK
          rw [hK] at h1
          simpa using h1
      | · intro K hK
          rw [hK] at h2
          simpa using h2
      | · intro K hK
          rw [hK] at h3
          simpa using h3
      | · intro K hK
          rw [hK] at h4
          simpa using h4
  · rintro ⟨h1, h2, h3, h4⟩
    refine ⟨?_, ?_, ?_, ?_⟩
    · cases hc : refToDigit r.From
      · rfl
      · simpa using h1 _ hc
    · cases hc : refToDigit r.To
      · rfl
      · simpa using h2 _ hc
    · cases hc : refToDigit r.PortFrom
      · rfl
      · simpa using h3 _ hc
    · cases hc : refToDigit r.PortTo
      · rfl
      · simpa using h4 _ hc

/-- None of the four event-derived substitution values is itself
reference-shaped. -/
def eventNoRef (e : NormalizedEvent) : Prop :=
  refToDigit e.SrcIP = none ∧ refToDigit e.DstIP = none ∧
  refToDigit (toString e.SrcPort) = none ∧ refToDigit (toString e.DstPort) = none

/-- Totality of resolution: on a directive whose stage-1 rule holds no
reference and whose later-stage references all point to strictly earlier
stages, with an event whose substitution values are not reference-shaped,
no field of any rule of the resolved copy parses as a reference. -/
theorem initBackLogRules_noRef (d : directive) (e : NormalizedEvent)
    (hev : eventNoRef e)
    (h0 : ruleNoRef (nthRule d.Rules 0) = true)
    (hb : ∀ i, 0 < i → i < d.Rules.length → ruleRefsBelow (nthRule d.Rules i) i = true) :
    ∀ i, ruleNoRef (nthRule (initBackLogRules d e).Rules i) = true := by
  intro i
  obtain ⟨hev1, hev2, hev3, hev4⟩ := hev
  obtain ⟨h01, h02, h03, h04⟩ := (ruleNoRef_iff _).mp h0
  rw [ruleNoRef_iff]
  have hlen : ∀ g : Rule → String, (d.Rules.map g).length = d.Rules.length := by
    intro g
    exact List.length_map d.Rules g
  refine ⟨?_, ?_, ?_, ?_⟩
  · have h := fieldResolve_noRef ipUsable e.SrcIP (d.Rules.map Rule.From) hev1
      (by rw [← nthRule_fromVal]; exact h01)
      (by
        intro j hj hjn K hK
        rw [← nthRule_fromVal] at hK
        rw [hlen] at hjn
        exact (((ruleRefsBelow_iff _ j).mp (hb j hj hjn)).1) K hK) i
    rw [← map_from_initBackLogRules, ← nthRule_fromVal] at h
    exact h
  · have h := fieldResolve_noRef ipUsable e.DstIP (d.Rules.map Rule.To) hev2
      (by rw [← nthRule_toVal]; exact h02)
      (by
        intro j hj hjn K hK
        rw [← nthRule_toVal] at hK
        rw [hlen] at hjn
        exact (((ruleRefsBelow_iff _ j).mp (hb j hj hjn)).2.1) K hK) i
    rw [← map_to_initBackLogRules, ← nthRule_toVal] at h
    exact h
  · have h := fieldResolve_noRef portUsable (toString e.SrcPort) (d.Rules.map Rule.PortFrom) hev3
      (by rw [← nthRule_portFromVal]; exact h03)
      (by
        intro j hj hjn K hK
        rw [← nthRule_portFromVal] at hK
        rw [hlen] at hjn
        exact (((ruleRefsBelow_iff _ j).mp (hb j hj hjn)).2.2.1) K hK) i
    rw [← map_portFrom_initBackLogRules, ← nthRule_portFromVal] at h
    exact h
  · have h := fieldResolve_noRef portUsable (toString e.DstPort) (d.Rules.map Rule.PortTo) hev4
      (by rw [← nthRule_portToVal]; exact h04)
      (by
        intro j hj hjn K hK
        rw [← nthRule_portToVal] at hK
        rw [hlen] at hjn
        exact (((ruleRefsBelow_iff _ j).mp (hb j hj hjn)).2.2.2) K hK) i
    rw [← map_portTo_initBackLogRules, ← nthRule_portToVal] at h
    exact h

theorem setStatus_eq_self (r : Rule) (s : String) (h : r.Status = s) :
    setStatus r s = r := by
  cases r
  simp only [setStatus] at *
  subst h
  rfl

theorem resolveField_of_none (get : Rule → String) (set : Rule → String → Rule)
    (u : String → Bool) (ev : String) (rs : List Rule) (i : Nat)
    (h : refToDigit (get (nthRule rs i)) = none) :
    resolveField get set u ev rs i = rs := by
  unfold resolveField
  rw [h]

theorem set_nthRule_self (rs : List Rule) (i : Nat) (h : i < rs.length) :
    rs.set i (nthRule rs i) = rs :=
  set_getD_self rs i dfltRule h

theorem nthRule_set_self (rs : List Rule) (i : Nat) (v : Rule) (h : i < rs.length) :
    nthRule (rs.set i v) i = v :=
  getD_set_self rs i v dfltRule h

theorem nthRule_set_ne (rs : List Rule) (i j : Nat) (v : Rule) (h : i ≠ j) :
    nthRule (rs.set i v) j = nthRule rs j :=
  getD_set_ne rs i j v dfltRule h

/-- A rule list already carrying the resolved statuses and no remaining
references is a fixpoint of the `initBackLogRules` loop. -/
theorem initFold_fixpoint (e : NormalizedEvent) (rs : List Rule)
    (hstat : ∀ i, i < rs.length →
      (nthRule rs i).Status = if i = 0 then "active" else "inactive")
    (hnr : ∀ i, 0 < i → ruleNoRef (nthRule rs i) = true) :
    ∀ k, k ≤ rs.length → initFold e rs k = rs := by
  intro k hk
  induction k with
  | zero => rfl
  | succ k ih =>
    have hklen : k < rs.length := Nat.lt_of_succ_le hk
    rw [initFold_succ, ih (Nat.le_of_succ_le hk)]
    unfold initStep
    rcases Nat.eq_zero_or_pos k with hz | hp
    · subst hz
      rw [if_pos rfl,
          setStatus_eq_self _ _ (by rw [hstat 0 hklen]; rfl),
          set_nthRule_self rs 0 hklen]
    · obtain ⟨hf, ht, hpf, hpt⟩ := (ruleNoRef_iff _).mp (hnr k hp)
      rw [if_neg (Nat.ne_of_gt hp),
          setStatus_eq_self _ _ (by rw [hstat k hklen, if_neg (Nat.ne_of_gt hp)]),
          set_nthRule_self rs k hklen]
      unfold resolveFrom resolveTo resolvePortFrom resolvePortTo
      rw [resolveField_of_none Rule.From setFrom _ _ _ _ hf,
          resolveField_of_none Rule.To setTo _ _ _ _ ht,
          resolveField_of_none Rule.PortFrom setPortFrom _ _ _ _ hpf,
          resolveField_of_none Rule.PortTo setPortTo _ _ _ _ hpt]

/-- Resolution is idempotent on validated directives: running
`initBackLogRules` on an already-resolved copy changes nothing. -/
theorem initBackLogRules_idem (d : directive) (e : NormalizedEvent)
    (hev : eventNoRef e)
    (h0 : ruleNoRef (nthRule d.Rules 0) = true)
    (hb : ∀ i, 0 < i → i < d.Rules.length → ruleRefsBelow (nthRule d.Rules i) i = true) :
    initBackLogRules (initBackLogRules d e) e = initBackLogRules d e := by
  have hlen := initBackLogRules_length d e
  have hfix := initFold_fixpoint e (initBackLogRules d e).Rules
    (by
      intro i hi
      exact initBackLogRules_status d e i (hlen ▸ hi))
    (fun i hi => initBackLogRules_noRef d e hev h0 hb i)
    (initBackLogRules d e).Rules.length (Nat.le_refl _)
  show ({ initBackLogRules d e with
      Rules := initFold e (initBackLogRules d e).Rules (initBackLogRules d e).Rules.length }
      : directive) = initBackLogRules d e
  rw [hfix]

/-! ## Manager-loop routing -/

/-- The backlog scan is first-match-wins over the predicate "current stage
above 1 and the rule at `CurrentStage - 1` matches the event". -/
theorem findMatch_eq_find (m : Matcher) (dID : Nat) (e : NormalizedEvent)
    (bls : List backLog) (hid : ∀ v ∈ bls, v.Directive.ID = dID) :
    findMatch m dID e bls
      = bls.find? (fun v => decide (1 < v.CurrentStage)
          && m e (nthRule v.Directive.Rules (v.CurrentStage - 1)) e.ConnID) := by
  induction bls with
  | nil => rfl
  | cons v rest ih =>
    have hv : v.Directive.ID = dID := hid v (by simp)
    have hrest : ∀ w ∈ rest, w.Directive.ID = dID := fun w hw => hid w (by simp [hw])
    rw [List.find?_cons]
    unfold findMatch
    by_cases hcs : 1 < v.CurrentStage
    · rw [if_neg (not_or.mpr ⟨fun h => h hv, Nat.not_le.mpr hcs⟩)]
      by_cases hm : m e (nthRule v.Directive.Rules (v.CurrentStage - 1)) e.ConnID = true
      · rw [if_pos hm]
        simp [hcs, hm]
      · rw [if_neg hm]
        simp [hcs, Bool.eq_false_iff.mpr hm, ih hrest]
    · rw [if_pos (Or.inr (Nat.not_lt.mp hcs))]
      simp [hcs, ih hrest]

theorem managerLoopStep_of_discard (m : Matcher) (idRes : Option String) (now : Int)
    (d : directive) (bls : List backLog) (e : NormalizedEvent)
    (h : managerStep m d bls e = ManagerAction.discard) :
    managerLoopStep m idRes now d bls e = (bls, LoopEffect.discarded) := by
  unfold managerStep at h
  unfold managerLoopStep
  cases hf : findMatch m d.ID e bls with
  | some v =>
    rw [hf] at h
    exact ManagerAction.noConfusion h
  | none =>
    rw [hf] at h
    have h2 : (if m e (nthRule d.Rules 0) e.ConnID then ManagerAction.create
               else ManagerAction.discard) = ManagerAction.discard := h
    by_cases hm : m e (nthRule d.Rules 0) e.ConnID = true
    · rw [if_pos hm] at h2
      exact ManagerAction.noConfusion h2
    · show (if m e (nthRule d.Rules 0) e.ConnID then
              match createNewBackLog idRes now d e with
              | none => (bls, LoopEffect.createFailWarned)
              | some b => (bls ++ [b], LoopEffect.created b.ID)
            else (bls, LoopEffect.discarded)) = (bls, LoopEffect.discarded)
      rw [if_neg hm]

/-! ## Claims -/

/-- C1: for every incoming event on a directive's channel, the group loop
first scans existing backlogs, skipping any whose `CurrentStage` is 1 or
less; each remaining backlog is tested against the rule at index
`CurrentStage - 1` via the match predicate; the first backlog that matches
gets its stage-advance dispatched and scanning stops; only if no existing
backlog matched is the event tested against the directive's stage-1 rule,
and if that also fails the event is discarded for this directive with no
state change and no error.  (All backlogs of the group belong to this
directive — the hypothesis `hid` — since the group is bound 1:1 to it.) -/
theorem claim_C1_event_routing (m : Matcher) (d : directive) (bls : List backLog)
    (e : NormalizedEvent) (hid : ∀ v ∈ bls, v.Directive.ID = d.ID) :
    managerStep m d bls e
      = (match bls.find? (fun v => decide (1 < v.CurrentStage)
            && m e (nthRule v.Directive.Rules (v.CurrentStage - 1)) e.ConnID) with
         | some v => ManagerAction.advance v.ID (v.CurrentStage - 1)
         | none => if m e (nthRule d.Rules 0) e.ConnID then ManagerAction.create
                   else ManagerAction.discard)
    ∧ (∀ idRes now, managerStep m d bls e = ManagerAction.discard →
        managerLoopStep m idRes now d bls e = (bls, LoopEffect.discarded)) := by
  constructor
  · unfold managerStep
    rw [findMatch_eq_find m d.ID e bls hid]
  · intro idRes now h
    exact managerLoopStep_of_discard m idRes now d bls e h

def c1m : Matcher := fun e r _ => r.From == e.SrcIP

def c1d : directive := { ID := 7, Rules := [ { From := "ANY" }, { From := "10.0.0.2" } ] }

def c1b : backLog :=
  { ID := "bx", CurrentStage := 2, HighestStage := 2,
    Directive := { ID := 7, Rules := [ { From := "ANY" }, { From := "10.0.0.2" } ] } }

def c1e : NormalizedEvent := { SrcIP := "10.0.0.2", ConnID := 5 }

theorem claim_C1_event_routing_witness :
    (managerStep c1m c1d [c1b] c1e
      = (match [c1b].find? (fun v => decide (1 < v.CurrentStage)
            && c1m c1e (nthRule v.Directive.Rules (v.CurrentStage - 1)) c1e.ConnID) with
         | some v => ManagerAction.advance v.ID (v.CurrentStage - 1)
         | none => if c1m c1e (nthRule c1d.Rules 0) c1e.ConnID then ManagerAction.create
                   else ManagerAction.discard))
    ∧ (∀ idRes now, managerStep c1m c1d [c1b] c1e = ManagerAction.discard →
        managerLoopStep c1m idRes now c1d [c1b] c1e = ([c1b], LoopEffect.discarded)) :=
  claim_C1_event_routing c1m c1d [c1b] c1e (by decide)

/-- C2: at backlog creation, reference resolution over the backlog's private
directive copy rewrites, for every stage index `i > 0`, each of the four
fields From/To/PortFrom/PortTo that parses as a `same as stage K` reference:
for the IP fields, if the referenced stage's corresponding value (read from
the copy being rewritten: the resolved value for stages already processed,
the authored text otherwise) is not ANY, HOME_NET or !HOME_NET it is copied
literally, otherwise it is replaced by the triggering event's source IP
(From) or destination IP (To); for the port fields, if the referenced value
is not ANY it is copied literally, otherwise it is replaced by the
stringified source port (PortFrom) or destination port (PortTo); fields that
do not parse as references are left unchanged, and stage 1 is never
resolved.  The hypothesis `hb` keeps every reference inside the rule slice,
the domain on which the Go code does not panic. -/
theorem claim_C2_reference_resolution (d : directive) (e : NormalizedEvent)
    (hb : ∀ j, j < d.Rules.length →
      ruleRefsBelow (nthRule d.Rules j) d.Rules.length = true) :
    (∀ i, 0 < i → i < d.Rules.length →
      ((refToDigit ((nthRule d.Rules i).From) = none →
          (nthRule (initBackLogRules d e).Rules i).From = (nthRule d.Rules i).From)
        ∧ (∀ v, refToDigit ((nthRule d.Rules i).From) = some v →
            (nthRule (initBackLogRules d e).Rules i).From =
              (let ref := if v - 1 < i then (nthRule (initBackLogRules d e).Rules (v - 1)).From
                          else (nthRule d.Rules (v - 1)).From
               if ref ≠ "ANY" ∧ ref ≠ "HOME_NET" ∧ ref ≠ "!HOME_NET" then ref else e.SrcIP)))
      ∧ ((refToDigit ((nthRule d.Rules i).To) = none →
          (nthRule (initBackLogRules d e).Rules i).To = (nthRule d.Rules i).To)
        ∧ (∀ v, refToDigit ((nthRule d.Rules i).To) = some v →
            (nthRule (initBackLogRules d e).Rules i).To =
              (let ref := if v - 1 < i then (nthRule (initBackLogRules d e).Rules (v - 1)).To
                          else (nthRule d.Rules (v - 1)).To
               if ref ≠ "ANY" ∧ ref ≠ "HOME_NET" ∧ ref ≠ "!HOME_NET" then ref else e.DstIP)))
      ∧ ((refToDigit ((nthRule d.Rules i).PortFrom) = none →
          (nthRule (initBackLogRules d e).Rules i).PortFrom = (nthRule d.Rules i).PortFrom)
        ∧ (∀ v, refToDigit ((nthRule d.Rules i).PortFrom) = some v →
            (nthRule (initBackLogRules d e).Rules i).PortFrom =
              (let ref := if v - 1 < i
                          then (nthRule (initBackLogRules d e).Rules (v - 1)).PortFrom
                          else (nthRule d.Rules (v - 1)).PortFrom
               if ref ≠ "ANY" then ref else toString e.SrcPort)))
      ∧ ((refToDigit ((nthRule d.Rules i).PortTo) = none →
          (nthRule (initBackLogRules d e).Rules i).PortTo = (nthRule d.Rules i).PortTo)
        ∧ (∀ v, refToDigit ((nthRule d.Rules i).PortTo) = some v →
            (nthRule (initBackLogRules d e).Rules i).PortTo =
              (let ref := if v - 1 < i
                          then (nthRule (initBackLogRules d e).Rules (v - 1)).PortTo
                          else (nthRule d.Rules (v - 1)).PortTo
               if ref ≠ "ANY" then ref else toString e.DstPort))))
    ∧ ((nthRule (initBackLogRules d e).Rules 0).From = (nthRule d.Rules 0).From
       ∧ (nthRule (initBackLogRules d e).Rules 0).To = (nthRule d.Rules 0).To
       ∧ (nthRule (initBackLogRules d e).Rules 0).PortFrom = (nthRule d.Rules 0).PortFrom
       ∧ (nthRule (initBackLogRules d e).Rules 0).PortTo = (nthRule d.Rules 0).PortTo) := by
  constructor
  · intro i h0 hn
    refine ⟨⟨?_, ?_⟩, ⟨?_, ?_⟩, ⟨?_, ?_⟩, ⟨?_, ?_⟩⟩
    · intro hnone
      have hc := initBackLogRules_from_char d e i h0 hn
      rw [hnone] at hc
      exact hc
    · intro v hsome
      have hc := initBackLogRules_from_char d e i h0 hn
      rw [hsome] at hc
      simp only [ipUsable, decide_eq_true_eq] at hc
      exact hc
    · intro hnone
      have hc := initBackLogRules_to_char d e i h0 hn
      rw [hnone] at hc
      exact hc
    · intro v hsome
      have hc := initBackLogRules_to_char d e i h0 hn
      rw [hsome] at hc
      simp only [ipUsable, decide_eq_true_eq] at hc
      exact hc
    · intro hnone
      have hc := initBackLogRules_portFrom_char d e i h0 hn
      rw [hnone] at hc
      exact hc
    · intro v hsome
      have hc := initBackLogRules_portFrom_char d e i h0 hn
      rw [hsome] at hc
      simp only [portUsable, decide_eq_true_eq] at hc
      exact hc
    · intro hnone
      have hc := initBackLogRules_portTo_char d e i h0 hn
      rw [hnone] at hc
      exact hc
    · intro v hsome
      have hc := initBackLogRules_portTo_char d e i h0 hn
      rw [hsome] at hc
      simp only [portUsable, decide_eq_true_eq] at hc
      exact hc
  · exact initBackLogRules_zero_fields d e

def c2d : directive :=
  { ID := 3, Rules := [
      { From := "ANY", To := "2.2.2.2", PortFrom := "80", PortTo := "ANY" },
      { From := ":1", To := ":1", PortFrom := ":1", PortTo := ":1" } ] }

def c2e : NormalizedEvent :=
  { SrcIP := "9.9.9.9", DstIP := "8.8.8.8", SrcPort := 1234, DstPort := 443 }

theorem claim_C2_reference_resolution_witness :
    (nthRule (initBackLogRules c2d c2e).Rules 1).From = "9.9.9.9" := by
  have h := ((claim_C2_reference_resolution c2d c2e (by decide)).1 1
    (by decide) (by decide)).1.2 1 (by decide)
  rw [h]
  decide

def c3d : directive :=
  { ID := 4, Rules := [
      { From := "1.1.1.1" },
      { From := ":3" },
      { From := ":1" } ] }

def c3e : NormalizedEvent := { SrcIP := "9.9.9.9", DstIP := "8.8.8.8" }

/-- C3 counterexample: on a directive whose stage 2 references the (then
still unresolved) stage 3, resolution is neither total nor idempotent: after
creation, stage 2's From is the literal text `:1` — which still parses as a
reference — and running the resolution a second time changes it (to
`1.1.1.1`). -/
theorem claim_C3_counterexample :
    refToDigit ((nthRule (initBackLogRules c3d c3e).Rules 1).From) = some 1
    ∧ initBackLogRules (initBackLogRules c3d c3e) c3e ≠ initBackLogRules c3d c3e := by
  decide

/-- C3 amended: reference resolution is total and idempotent on validated
directives — those whose stage-1 rule holds no reference and whose
stage-2..N references each point to a strictly earlier stage — whenever the
event's substitution values are not themselves reference-shaped: after
creation no field of any stage still parses as a `same as stage K`
reference, and applying the resolution a second time to the already-resolved
copy leaves it unchanged. -/
theorem claim_C3_resolution_total_idem (d : directive) (e : NormalizedEvent)
    (hev : eventNoRef e)
    (h0 : ruleNoRef (nthRule d.Rules 0) = true)
    (hb : ∀ i, 0 < i → i < d.Rules.length → ruleRefsBelow (nthRule d.Rules i) i = true) :
    (∀ i, refToDigit ((nthRule (initBackLogRules d e).Rules i).From) = none
        ∧ refToDigit ((nthRule (initBackLogRules d e).Rules i).To) = none
        ∧ refToDigit ((nthRule (initBackLogRules d e).Rules i).PortFrom) = none
        ∧ refToDigit ((nthRule (initBackLogRules d e).Rules i).PortTo) = none)
    ∧ initBackLogRules (initBackLogRules d e) e = initBackLogRules d e := by
  constructor
  · intro i
    exact (ruleNoRef_iff _).mp (initBackLogRules_noRef d e hev h0 hb i)
  · exact initBackLogRules_idem d e hev h0 hb

def c3wd : directive :=
  { ID := 5, Rules := [
      { From := "1.1.1.1", To := "ANY", PortFrom := "80", PortTo := "ANY" },
      { From := ":1", To := ":1", PortFrom := ":1", PortTo := ":1" } ] }

def c3we : NormalizedEvent :=
  { SrcIP := "9.9.9.9", DstIP := "8.8.8.8", SrcPort := 1234, DstPort := 443 }

theorem claim_C3_resolution_total_idem_witness :
    (∀ i, refToDigit ((nthRule (initBackLogRules c3wd c3we).Rules i).From) = none
        ∧ refToDigit ((nthRule (initBackLogRules c3wd c3we).Rules i).To) = none
        ∧ refToDigit ((nthRule (initBackLogRules c3wd c3we).Rules i).PortFrom) = none
        ∧ refToDigit ((nthRule (initBackLogRules c3wd c3we).Rules i).PortTo) = none)
    ∧ initBackLogRules (initBackLogRules c3wd c3we) c3we = initBackLogRules c3wd c3we :=
  claim_C3_resolution_total_idem c3wd c3we
    (by refine ⟨?_, ?_, ?_, ?_⟩ <;> decide) (by decide)
    (by
      intro i h0 h1
      have h2 : i < 2 := h1
      have h3 : i = 1 := by omega
      subst h3
      decide)

/-- C4: for every directive template and triggering event for which
identifier generation succeeds, the created backlog has `CurrentStage = 1`,
`HighestStage` equal to the directive's rule count, its own directive copy
(value-identical data; aliasing does not exist in the value-semantics
embedding), the stage-1 rule `"active"` and every later stage
`"inactive"`. -/
theorem claim_C4_new_backlog_shape (bid : String) (now : Int) (d : directive)
    (e : NormalizedEvent) (h : 0 < d.Rules.length) :
    ∃ b, createNewBackLog (some bid) now d e = some b
      ∧ b.ID = bid
      ∧ b.CurrentStage = 1
      ∧ b.HighestStage = d.Rules.length
      ∧ b.Directive.ID = d.ID
      ∧ b.Directive.Rules.length = d.Rules.length
      ∧ (nthRule b.Directive.Rules 0).Status = "active"
      ∧ (∀ i, 0 < i → i < d.Rules.length →
          (nthRule b.Directive.Rules i).Status = "inactive") := by
  have hlen : 0 < (initBackLogRules d e).Rules.length := by
    rw [initBackLogRules_length]
    exact h
  refine ⟨_, rfl, rfl, rfl, rfl, rfl, ?_, ?_, ?_⟩
  · show ((initBackLogRules d e).Rules.set 0 _).length = d.Rules.length
    rw [List.length_set]
    exact initBackLogRules_length d e
  · have h0s := initBackLogRules_status d e 0 h
    rw [if_pos rfl] at h0s
    show (nthRule ((initBackLogRules d e).Rules.set 0 _) 0).Status = "active"
    rw [nthRule_set_self _ 0 _ hlen]
    exact h0s
  · intro i hi hin
    have hs := initBackLogRules_status d e i hin
    rw [if_neg (by omega : ¬ i = 0)] at hs
    show (nthRule ((initBackLogRules d e).Rules.set 0 _) i).Status = "inactive"
    rw [nthRule_set_ne _ 0 i _ (by omega)]
    exact hs

def c4d : directive :=
  { ID := 11, Rules := [ { From := "ANY", PortFrom := "80" }, { From := ":1" } ] }

def c4e : NormalizedEvent := { SrcIP := "9.9.9.9" }

theorem claim_C4_new_backlog_shape_witness :
    ∃ b, createNewBackLog (some ("bw4")) 7 c4d c4e = some b
      ∧ b.ID = "bw4"
      ∧ b.CurrentStage = 1
      ∧ b.HighestStage = c4d.Rules.length
      ∧ b.Directive.ID = c4d.ID
      ∧ b.Directive.Rules.length = c4d.Rules.length
      ∧ (nthRule b.Directive.Rules 0).Status = "active"
      ∧ (∀ i, 0 < i → i < c4d.Rules.length →
          (nthRule b.Directive.Rules i).Status = "inactive") :=
  claim_C4_new_backlog_shape ("bw4") 7 c4d c4e (by decide)

def c5d : directive := { ID := 9, Rules := [ { From := "ANY" } ] }

def c5e : NormalizedEvent := { Timestamp := 3 }

/-- C5 counterexample: `createNewBackLog` sets the stage-1 start time from
the wall clock read at creation (`time.Now().Unix()`, line 191), not from
the timestamp the `NormalizedEvent` carries: with clock reading 5 and event
timestamp 3 the stored start time is 5, not 3. -/
theorem claim_C5_counterexample :
    (createNewBackLog (some ("b1")) 5 c5d c5e).map
        (fun b => (nthRule b.Directive.Rules 0).StartTime) = some 5
    ∧ c5e.Timestamp = 3 ∧ (5 : Int) ≠ 3 := by
  decide

/-- C5 amended: at backlog creation the stage-1 rule's start time is set to
the wall-clock reading taken during creation (the moment the manager
processes the event), for every directive template and triggering event —
not to the timestamp field carried by the event. -/
theorem claim_C5_start_time (bid : String) (now : Int) (d : directive)
    (e : NormalizedEvent) (h : 0 < d.Rules.length) :
    ∀ b, createNewBackLog (some bid) now d e = some b →
      (nthRule b.Directive.Rules 0).StartTime = now := by
  intro b hb
  have hlen : 0 < (initBackLogRules d e).Rules.length := by
    rw [initBackLogRules_length]
    exact h
  have h2 := Option.some.inj hb
  subst h2
  show (nthRule ((initBackLogRules d e).Rules.set 0 _) 0).StartTime = now
  rw [nthRule_set_self _ 0 _ hlen]

def c5wd : directive := { ID := 10, Rules := [ { From := "ANY" }, { From := ":1" } ] }

def c5we : NormalizedEvent := { Timestamp := 1000, SrcIP := "4.4.4.4" }

theorem claim_C5_start_time_witness :
    (createNewBackLog (some ("bw")) 42 c5wd c5we).map
        (fun b => (nthRule b.Directive.Rules 0).StartTime) = some 42 := by
  cases hc : createNewBackLog (some ("bw")) 42 c5wd c5we with
  | none => exact absurd hc (by decide)
  | some b =>
    show some ((nthRule b.Directive.Rules 0).StartTime) = some 42
    rw [claim_C5_start_time ("bw") 42 c5wd c5we (by decide) b hc]

def c6m : Matcher := fun _ _ _ => true

def c6d : directive := { ID := 1, Rules := [ { From := "ANY" } ] }

def c6e : NormalizedEvent := { ConnID := 2 }

/-- C6 counterexample: on the creation path the group's exclusive lock is
released (`blogs.Unlock()`, line 169) BEFORE the synchronous first-event
processing (line 173), not after it: in the iteration trace `groupUnlock`
occurs strictly before `processFirstEvent`.  (It is the coarse global lock,
taken at line 166, that is released only after the processing.) -/
theorem claim_C6_counterexample :
    managerStep c6m c6d [] c6e = ManagerAction.create
    ∧ (managerIterTrace c6m (some ("b1")) 0 c6d [] c6e).indexOf LoopEvent.groupUnlock
        < (managerIterTrace c6m (some ("b1")) 0 c6d [] c6e).indexOf LoopEvent.processFirstEvent := by
  decide

/-- C6 amended: on the creation path the group's exclusive lock is released
after the new backlog is inserted but *before* its first event is processed;
it is the coarse global lock that is released only after the synchronous
first-event processing, which is the last action of the iteration — the
loop takes no further event until it completes.  On the match-on-existing
path the group's exclusive lock is released immediately after the
stage-advance is dispatched. -/
theorem claim_C6_lock_order (m : Matcher) (d : directive) (bls : List backLog)
    (e : NormalizedEvent) (now : Int) (bid : String) :
    (managerStep m d bls e = ManagerAction.create →
      managerIterTrace m (some bid) now d bls e
        = [LoopEvent.recvEvent, LoopEvent.groupLock, LoopEvent.glockLock,
           LoopEvent.insertBacklog, LoopEvent.groupUnlock, LoopEvent.processFirstEvent,
           LoopEvent.glockUnlock]
      ∧ (managerIterTrace m (some bid) now d bls e).indexOf LoopEvent.insertBacklog
          < (managerIterTrace m (some bid) now d bls e).indexOf LoopEvent.groupUnlock
      ∧ (managerIterTrace m (some bid) now d bls e).indexOf LoopEvent.groupUnlock
          < (managerIterTrace m (some bid) now d bls e).indexOf LoopEvent.processFirstEvent
      ∧ (managerIterTrace m (some bid) now d bls e).indexOf LoopEvent.processFirstEvent
          < (managerIterTrace m (some bid) now d bls e).indexOf LoopEvent.glockUnlock
      ∧ (managerIterTrace m (some bid) now d bls e).indexOf LoopEvent.glockUnlock
          = (managerIterTrace m (some bid) now d bls e).length - 1)
    ∧ (∀ b idx, managerStep m d bls e = ManagerAction.advance b idx →
        managerIterTrace m (some bid) now d bls e
          = [LoopEvent.recvEvent, LoopEvent.groupLock, LoopEvent.dispatchAdvance,
             LoopEvent.groupUnlock]) := by
  constructor
  · intro hc
    have ht : managerIterTrace m (some bid) now d bls e
        = [LoopEvent.recvEvent, LoopEvent.groupLock, LoopEvent.glockLock,
           LoopEvent.insertBacklog, LoopEvent.groupUnlock, LoopEvent.processFirstEvent,
           LoopEvent.glockUnlock] := by
      unfold managerIterTrace
      rw [hc]
      rfl
    refine ⟨ht, ?_, ?_, ?_, ?_⟩ <;> rw [ht] <;> decide
  · intro b idx ha
    unfold managerIterTrace
    rw [ha]
    rfl

theorem claim_C6_lock_order_witness :
    managerIterTrace c6m (some ("b1")) 0 c6d [] c6e
      = [LoopEvent.recvEvent, LoopEvent.groupLock, LoopEvent.glockLock,
         LoopEvent.insertBacklog, LoopEvent.groupUnlock, LoopEvent.processFirstEvent,
         LoopEvent.glockUnlock] :=
  ((claim_C6_lock_order c6m c6d [] c6e 0 ("b1")).1 (by decide)).1

/-- C7: if identifier generation fails during backlog creation, creation is
aborted with a logged warning, the group's backlog collection is unchanged,
the triggering event is dropped for this directive, and the loop goes on to
process the remaining events exactly as if this event had not occurred. -/
theorem claim_C7_idgen_failure (m : Matcher) (d : directive) (bls : List backLog)
    (e : NormalizedEvent) (now : Int)
    (rest : List (NormalizedEvent × Option String × Int))
    (h : managerStep m d bls e = ManagerAction.create) :
    managerLoopStep m none now d bls e = (bls, LoopEffect.createFailWarned)
    ∧ managerRun m d ((e, none, now) :: rest) bls = managerRun m d rest bls := by
  have h1 : managerLoopStep m none now d bls e = (bls, LoopEffect.createFailWarned) := by
    unfold managerStep at h
    unfold managerLoopStep
    cases hf : findMatch m d.ID e bls with
    | some v =>
      rw [hf] at h
      exact ManagerAction.noConfusion h
    | none =>
      rw [hf] at h
      have h2 : (if m e (nthRule d.Rules 0) e.ConnID then ManagerAction.create
                 else ManagerAction.discard) = ManagerAction.create := h
      by_cases hm : m e (nthRule d.Rules 0) e.ConnID = true
      · show (if m e (nthRule d.Rules 0) e.ConnID then
                match createNewBackLog none now d e with
                | none => (bls, LoopEffect.createFailWarned)
                | some b => (bls ++ [b], LoopEffect.created b.ID)
              else (bls, LoopEffect.discarded)) = (bls, LoopEffect.createFailWarned)
        rw [if_pos hm]
        rfl
      · rw [if_neg hm] at h2
        exact ManagerAction.noConfusion h2
  refine ⟨h1, ?_⟩
  show managerRun m d rest (managerLoopStep m none now d bls e).1 = managerRun m d rest bls
  rw [h1]

def c7m : Matcher := fun _ _ _ => true

def c7d : directive := { ID := 2, Rules := [ { From := "ANY" } ] }

def c7e : NormalizedEvent := { ConnID := 3 }

theorem claim_C7_idgen_failure_witness :
    managerLoopStep c7m none 0 c7d [] c7e = ([], LoopEffect.createFailWarned)
    ∧ managerRun c7m c7d [(c7e, none, 0)] [] = managerRun c7m c7d [] [] :=
  claim_C7_idgen_failure c7m c7d [] c7e 0 [] (by decide)

/-- C8: processing a removal-channel message deletes exactly the entry with
the given backlog identifier from the referenced group's collection, under
the group's exclusive lock and the coarse global lock (in that order);
every other entry of that group and every other group is unchanged; a
message naming an absent identifier is a no-op, and removing twice equals
removing once (the same backlog is never removed twice). -/
theorem claim_C8_removal (groups : List (List backLog)) (msg : removalChannelMsg)
    (bl : List backLog) (bid : String) :
    (msg.blogs < groups.length →
      (removeBackLogGlobal groups msg).getD msg.blogs []
        = removeBackLog (groups.getD msg.blogs []) msg.ID)
    ∧ (∀ j, j ≠ msg.blogs → (removeBackLogGlobal groups msg).getD j [] = groups.getD j [])
    ∧ (∀ b, b ∈ removeBackLog bl bid ↔ b ∈ bl ∧ b.ID ≠ bid)
    ∧ ((∀ b ∈ bl, b.ID ≠ bid) → removeBackLog bl bid = bl)
    ∧ removeBackLog (removeBackLog bl bid) bid = removeBackLog bl bid
    ∧ (removeBackLogTrace.indexOf RemovalEvent.groupLock
         < removeBackLogTrace.indexOf RemovalEvent.glockLock
       ∧ removeBackLogTrace.indexOf RemovalEvent.glockLock
         < removeBackLogTrace.indexOf RemovalEvent.deleteEntry
       ∧ removeBackLogTrace.indexOf RemovalEvent.deleteEntry
         < removeBackLogTrace.indexOf RemovalEvent.glockUnlock
       ∧ removeBackLogTrace.indexOf RemovalEvent.glockUnlock
         < removeBackLogTrace.indexOf RemovalEvent.groupUnlock) := by
  refine ⟨?_, ?_, ?_, ?_, ?_, ?_⟩
  · intro h
    unfold removeBackLogGlobal
    exact getD_set_self groups msg.blogs _ [] h
  · intro j hj
    unfold removeBackLogGlobal
    exact getD_set_ne groups msg.blogs j _ [] (Ne.symm hj)
  · intro b
    simp [removeBackLog, List.mem_filter]
  · intro hall
    unfold removeBackLog
    apply List.filter_eq_self.mpr
    intro a ha
    simpa using hall a ha
  · unfold removeBackLog
    apply List.filter_eq_self.mpr
    intro a ha
    exact (List.mem_filter.mp ha).2
  · decide

def c8groups : List (List backLog) :=
  [[{ ID := "a" }, { ID := "bgone" }], [{ ID := "c" }]]

def c8msg : removalChannelMsg := { blogs := 0, ID := "bgone" }

theorem claim_C8_removal_witness :
    ((removeBackLogGlobal c8groups c8msg).getD 0 []
      = removeBackLog (c8groups.getD 0 []) "bgone")
    ∧ (removeBackLogGlobal c8groups c8msg).getD 1 [] = c8groups.getD 1 [] := by
  have h := claim_C8_removal c8groups c8msg (c8groups.getD 0 []) ("bgone")
  exact ⟨h.1 (by decide), h.2.1 1 (by decide)⟩

/-- The sweep fold, characterised: the accumulated count is the total of
all group sizes (skipped empty groups contribute zero either way) and the
`checkExpired` invocations are exactly the concatenation of the groups'
backlog IDs in order. -/
theorem sweep_eq (groups : List (List backLog)) :
    sweep groups
      = ((groups.map List.length).sum, (groups.map (fun g => g.map backLog.ID)).flatten) := by
  suffices h : ∀ (c : Nat) (ids : List String),
      groups.foldl (fun acc g => if g.length = 0 then acc
        else (acc.1 + g.length, acc.2 ++ g.map backLog.ID)) (c, ids)
      = (c + (groups.map List.length).sum,
         ids ++ (groups.map (fun g => g.map backLog.ID)).flatten) by
    have h2 := h 0 []
    unfold sweep
    rw [h2]
    simp
  intro c ids
  induction groups generalizing c ids with
  | nil => simp
  | cons g gs ih =>
    rw [List.foldl_cons]
    by_cases hg : g.length = 0
    · have hgn : g = [] := List.length_eq_zero.mp hg
      subst hgn
      rw [if_pos hg, ih]
      simp
    · rw [if_neg hg, ih]
      simp [Nat.add_assoc, List.append_assoc]

/-- C9: after a sweep, the published open-backlog counter equals the sum of
the group sizes observed during the sweep (groups observed empty are
skipped, contributing zero and receiving no `checkExpired` call), and under
the system invariant that backlog identifiers are globally unique, every
backlog in a non-empty group receives exactly one `checkExpired` call per
sweep. -/
theorem claim_C9_sweep (groups : List (List backLog))
    (hnodup : ((groups.map (fun g => g.map backLog.ID)).flatten).Nodup) :
    (sweep groups).1 = (groups.map List.length).sum
    ∧ (sweep groups).2 = (groups.map (fun g => g.map backLog.ID)).flatten
    ∧ ∀ g ∈ groups, ∀ b ∈ g, (sweep groups).2.count b.ID = 1 := by
  have hs := sweep_eq groups
  refine ⟨by rw [hs], by rw [hs], ?_⟩
  intro g hg b hb
  rw [hs]
  exact List.count_eq_one_of_mem hnodup
    (List.mem_flatten_of_mem (List.mem_map_of_mem _ hg) (List.mem_map_of_mem _ hb))

def c9groups : List (List backLog) :=
  [[{ ID := "a" }], [], [{ ID := "b" }, { ID := "c" }]]

theorem claim_C9_sweep_witness :
    (sweep c9groups).1 = (c9groups.map List.length).sum
    ∧ (sweep c9groups).2 = (c9groups.map (fun g => g.map backLog.ID)).flatten
    ∧ ∀ g ∈ c9groups, ∀ b ∈ g, (sweep c9groups).2.count b.ID = 1 :=
  claim_C9_sweep c9groups (by decide)

/-! ## Read discipline of reference resolution (backward vs forward) -/

/-- A resolved value at a positive index whose template value was a
reference is `usable` whenever the event-derived value is. -/
theorem fieldResolve_usable_of_ref (u : String → Bool) (ev : String) (fs : List String)
    (hev : u ev = true) (j : Nat) (hj : 0 < j) (hjn : j < fs.length)
    (href : ∃ Kp, refToDigit (fs.getD j "") = some Kp) :
    u ((fieldResolve u ev fs).getD j "") = true := by
  obtain ⟨Kp, hKp⟩ := href
  rw [fieldResolve_getD_char u ev fs j hj hjn, hKp]
  dsimp only
  split
  · split
    · rename_i hu
      exact hu
    · exact hev
  · split
    · rename_i hu
      exact hu
    · exact hev

/-- A backward reference to a stage whose template value was itself a
reference receives that stage's resolved value. -/
theorem fieldResolve_backward (u : String → Bool) (ev : String) (fs : List String)
    (hev : u ev = true) (i j K : Nat) (hj : 0 < j) (hji : j < i) (hin : i < fs.length)
    (hKi : refToDigit (fs.getD i "") = some K) (hKj : K - 1 = j)
    (href : ∃ Kp, refToDigit (fs.getD j "") = some Kp) :
    (fieldResolve u ev fs).getD i "" = (fieldResolve u ev fs).getD j "" := by
  have hu := fieldResolve_usable_of_ref u ev fs hev j hj (by omega) href
  rw [fieldResolve_getD_char u ev fs i (by omega) hin, hKi]
  dsimp only
  rw [hKj, if_pos hji, if_pos hu]

/-- A forward (or self-) reference reads the still-unresolved template text
and applies the usual copy-or-substitute rule to it. -/
theorem fieldResolve_forward (u : String → Bool) (ev : String) (fs : List String)
    (i K : Nat) (h0 : 0 < i) (hin : i < fs.length)
    (hKi : refToDigit (fs.getD i "") = some K) (hfw : i ≤ K - 1) :
    (fieldResolve u ev fs).getD i ""
      = (if u (fs.getD (K - 1) "") then fs.getD (K - 1) "" else ev) := by
  rw [fieldResolve_getD_char u ev fs i h0 hin, hKi]
  dsimp only
  rw [if_neg (show ¬ K - 1 < i from by omega)]

def c10d : directive :=
  { ID := 6, Rules := [ { From := "1.1.1.1" }, { From := ":3" }, { From := "ANY" } ] }

def c10e : NormalizedEvent := { SrcIP := "9.9.9.9" }

/-- C10 counterexample: a forward reference does NOT always copy the
referenced field's still-unresolved text: when that text is a wildcard
class, the event's value is substituted instead.  Stage 2 forward-references
stage 3, whose unresolved text is `ANY`; the resolved stage-2 From is the
event's source IP `9.9.9.9`, not the copied text `ANY`. -/
theorem claim_C10_counterexample :
    refToDigit ((nthRule c10d.Rules 1).From) = some 3
    ∧ (nthRule c10d.Rules 2).From = "ANY"
    ∧ (nthRule (initBackLogRules c10d c10e).Rules 1).From = "9.9.9.9"
    ∧ ("9.9.9.9" : String) ≠ "ANY" := by
  decide

/-- C10 amended: resolution processes stages in increasing index order and
reads the referenced field from the backlog's partially-resolved copy, not
from the pristine template: a stage `i` referencing an earlier stage `j`
whose template value was itself a (in-range) reference receives stage `j`'s
already-resolved value (for every one of the four fields, provided the
event's substitution values are not wildcard literals); a forward reference
(`i ≤ K - 1`) reads the referenced field's still-unresolved template text,
copying it when it is not a wildcard class and substituting the event's
value otherwise. -/
theorem claim_C10_read_order (d : directive) (e : NormalizedEvent)
    (hsrc : e.SrcIP ≠ "ANY" ∧ e.SrcIP ≠ "HOME_NET" ∧ e.SrcIP ≠ "!HOME_NET")
    (hdst : e.DstIP ≠ "ANY" ∧ e.DstIP ≠ "HOME_NET" ∧ e.DstIP ≠ "!HOME_NET")
    (hsp : toString e.SrcPort ≠ "ANY") (hdp : toString e.DstPort ≠ "ANY") :
    (∀ i j K, 0 < j → j < i → i < d.Rules.length →
      refToDigit ((nthRule d.Rules i).From) = some K → K - 1 = j →
      (∃ Kp, refToDigit ((nthRule d.Rules j).From) = some Kp
        ∧ 1 ≤ Kp ∧ Kp ≤ d.Rules.length) →
      (nthRule (initBackLogRules d e).Rules i).From
        = (nthRule (initBackLogRules d e).Rules j).From)
    ∧ (∀ i j K, 0 < j → j < i → i < d.Rules.length →
      refToDigit ((nthRule d.Rules i).To) = some K → K - 1 = j →
      (∃ Kp, refToDigit ((nthRule d.Rules j).To) = some Kp
        ∧ 1 ≤ Kp ∧ Kp ≤ d.Rules.length) →
      (nthRule (initBackLogRules d e).Rules i).To
        = (nthRule (initBackLogRules d e).Rules j).To)
    ∧ (∀ i j K, 0 < j → j < i → i < d.Rules.length →
      refToDigit ((nthRule d.Rules i).PortFrom) = some K → K - 1 = j →
      (∃ Kp, refToDigit ((nthRule d.Rules j).PortFrom) = some Kp
        ∧ 1 ≤ Kp ∧ Kp ≤ d.Rules.length) →
      (nthRule (initBackLogRules d e).Rules i).PortFrom
        = (nthRule (initBackLogRules d e).Rules j).PortFrom)
    ∧ (∀ i j K, 0 < j → j < i → i < d.Rules.length →
      refToDigit ((nthRule d.Rules i).PortTo) = some K → K - 1 = j →
      (∃ Kp, refToDigit ((nthRule d.Rules j).PortTo) = some Kp
        ∧ 1 ≤ Kp ∧ Kp ≤ d.Rules.length) →
      (nthRule (initBackLogRules d e).Rules i).PortTo
        = (nthRule (initBackLogRules d e).Rules j).PortTo)
    ∧ (∀ i K, 0 < i → i < d.Rules.length →
        refToDigit ((nthRule d.Rules i).From) = some K → i ≤ K - 1 →
        (nthRule (initBackLogRules d e).Rules i).From
          = (let ref := (nthRule d.Rules (K - 1)).From
             if ref ≠ "ANY" ∧ ref ≠ "HOME_NET" ∧ ref ≠ "!HOME_NET" then ref else e.SrcIP))
    ∧ (∀ i K, 0 < i → i < d.Rules.length →
        refToDigit ((nthRule d.Rules i).To) = some K → i ≤ K - 1 →
        (nthRule (initBackLogRules d e).Rules i).To
          = (let ref := (nthRule d.Rules (K - 1)).To
             if ref ≠ "ANY" ∧ ref ≠ "HOME_NET" ∧ ref ≠ "!HOME_NET" then ref else e.DstIP))
    ∧ (∀ i K, 0 < i → i < d.Rules.length →
        refToDigit ((nthRule d.Rules i).PortFrom) = some K → i ≤ K - 1 →
        (nthRule (initBackLogRules d e).Rules i).PortFrom
          = (let ref := (nthRule d.Rules (K - 1)).PortFrom
             if ref ≠ "ANY" then ref else toString e.SrcPort))
    ∧ (∀ i K, 0 < i → i < d.Rules.length →
        refToDigit ((nthRule d.Rules i).PortTo) = some K → i ≤ K - 1 →
        (nthRule (initBackLogRules d e).Rules i).PortTo
          = (let ref := (nthRule d.Rules (K - 1)).PortTo
             if ref ≠ "ANY" then ref else toString e.DstPort)) := by
  have hsrcu : ipUsable e.SrcIP = true := by
    simp only [ipUsable, decide_eq_true_eq]
    exact hsrc
  have hdstu : ipUsable e.DstIP = true := by
    simp only [ipUsable, decide_eq_true_eq]
    exact hdst
  have hspu : portUsable (toString e.SrcPort) = true := by
    simp only [portUsable, decide_eq_true_eq]
    exact hsp
  have hdpu : portUsable (toString e.DstPort) = true := by
    simp only [portUsable, decide_eq_true_eq]
    exact hdp
  refine ⟨?_, ?_, ?_, ?_, ?_, ?_, ?_, ?_⟩
  · intro i j K hj hji hin hKi hKj href
    have h := fieldResolve_backward ipUsable e.SrcIP (d.Rules.map Rule.From) hsrcu i j K hj hji
      (by rw [List.length_map]; exact hin)
      (by rw [← nthRule_fromVal]; exact hKi) hKj
      (by obtain ⟨Kp, hKp, _, _⟩ := href; exact ⟨Kp, by rw [← nthRule_fromVal]; exact hKp⟩)
    rw [← map_from_initBackLogRules] at h
    simp only [← nthRule_fromVal] at h
    exact h
  · intro i j K hj hji hin hKi hKj href
    have h := fieldResolve_backward ipUsable e.DstIP (d.Rules.map Rule.To) hdstu i j K hj hji
      (by rw [List.length_map]; exact hin)
      (by rw [← nthRule_toVal]; exact hKi) hKj
      (by obtain ⟨Kp, hKp, _, _⟩ := href; exact ⟨Kp, by rw [← nthRule_toVal]; exact hKp⟩)
    rw [← map_to_initBackLogRules] at h
    simp only [← nthRule_toVal] at h
    exact h
  · intro i j K hj hji hin hKi hKj href
    have h := fieldResolve_backward portUsable (toString e.SrcPort)
      (d.Rules.map Rule.PortFrom) hspu i j K hj hji
      (by rw [List.length_map]; exact hin)
      (by rw [← nthRule_portFromVal]; exact hKi) hKj
      (by obtain ⟨Kp, hKp, _, _⟩ := href
          exact ⟨Kp, by rw [← nthRule_portFromVal]; exact hKp⟩)
    rw [← map_portFrom_initBackLogRules] at h
    simp only [← nthRule_portFromVal] at h
    exact h
  · intro i j K hj hji hin hKi hKj href
    have h := fieldResolve_backward portUsable (toString e.DstPort)
      (d.Rules.map Rule.PortTo) hdpu i j K hj hji
      (by rw [List.length_map]; exact hin)
      (by rw [← nthRule_portToVal]; exact hKi) hKj
      (by obtain ⟨Kp, hKp, _, _⟩ := href
          exact ⟨Kp, by rw [← nthRule_portToVal]; exact hKp⟩)
    rw [← map_portTo_initBackLogRules] at h
    simp only [← nthRule_portToVal] at h
    exact h
  · intro i K h0i hin hKi hfw
    have h := fieldResolve_forward ipUsable e.SrcIP (d.Rules.map Rule.From) i K h0i
      (by rw [List.length_map]; exact hin)
      (by rw [← nthRule_fromVal]; exact hKi) hfw
    rw [← map_from_initBackLogRules] at h
    simp only [← nthRule_fromVal] at h
    simp only [ipUsable, decide_eq_true_eq] at h
    exact h
  · intro i K h0i hin hKi hfw
    have h := fieldResolve_forward ipUsable e.DstIP (d.Rules.map Rule.To) i K h0i
      (by rw [List.length_map]; exact hin)
      (by rw [← nthRule_toVal]; exact hKi) hfw
    rw [← map_to_initBackLogRules] at h
    simp only [← nthRule_toVal] at h
    simp only [ipUsable, decide_eq_true_eq] at h
    exact h
  · intro i K h0i hin hKi hfw
    have h := fieldResolve_forward portUsable (toString e.SrcPort)
      (d.Rules.map Rule.PortFrom) i K h0i
      (by rw [List.length_map]; exact hin)
      (by rw [← nthRule_portFromVal]; exact hKi) hfw
    rw [← map_portFrom_initBackLogRules] at h
    simp only [← nthRule_portFromVal] at h
    simp only [portUsable, decide_eq_true_eq] at h
    exact h
  · intro i K h0i hin hKi hfw
    have h := fieldResolve_forward portUsable (toString e.DstPort)
      (d.Rules.map Rule.PortTo) i K h0i
      (by rw [List.length_map]; exact hin)
      (by rw [← nthRule_portToVal]; exact hKi) hfw
    rw [← map_portTo_initBackLogRules] at h
    simp only [← nthRule_portToVal] at h
    simp only [portUsable, decide_eq_true_eq] at h
    exact h

def c10wd : directive :=
  { ID := 12, Rules := [ { From := "ANY" }, { From := ":1" }, { From := ":2" } ] }

def c10we : NormalizedEvent := { SrcIP := "9.9.9.9" }

theorem claim_C10_read_order_witness :
    (nthRule (initBackLogRules c10wd c10we).Rules 2).From
      = (nthRule (initBackLogRules c10wd c10we).Rules 1).From :=
  (claim_C10_read_order c10wd c10we (by decide) (by decide) (by decide) (by decide)).1
    2 1 2 (by decide) (by decide) (by decide) (by decide) (by decide)
    ⟨1, by decide, by decide, by decide⟩

end Dsiem
